import Mathlib

/-!
Shallow embedding of the LoopHeroOptimizer search/scoring engine
(`src/main.c`, with the auxiliary neighbour-counting functions of the
older variant `src/unnamed/part_000`).

Modelling conventions:
* C `int` becomes `Int`; C truncating `/` and `%` become `Int.tdiv` and
  `Int.tmod`.
* The 2-D tile array `struct Tile **grid` becomes a total function
  `Int → Int → Tile`; all in-bounds reads and writes coincide with the C
  code, and a write whose coordinates fall outside the allocated
  `numRows × numCols` block (undefined behaviour in C) updates the
  function at that point, harmlessly outside the scored region.
* The globals `numRows`/`numCols` become an explicit `Cfg` argument; the
  globals `bestVal`/`initial_recursion` are threaded through
  `recurse_grid` as an explicit search state, and the assignments to
  `bestVal` are additionally logged in an output trace.
* The C `while` loops (`heuristic_grid`, and the recursion of
  `recurse_grid`) take an explicit fuel argument.
-/

namespace LoopHero

/-- `enum Terrain {LHO_EMPTY = -1, LHO_RIVER = 0, LHO_LANDSCAPE = 1}` (main.c:39). -/
inductive Terrain where
  | LHO_EMPTY
  | LHO_RIVER
  | LHO_LANDSCAPE
deriving DecidableEq, Repr

/-- The numeric value of each `enum Terrain` constant. -/
def Terrain.toInt : Terrain → Int
  | .LHO_EMPTY => -1
  | .LHO_RIVER => 0
  | .LHO_LANDSCAPE => 1

/-- `enum Landscape` (main.c:42). -/
inductive Landscape where
  | LHO_MEADOW
  | LHO_THICKET
  | LHO_MOUNTAIN
  | LHO_SUBURB
deriving DecidableEq, Repr

/-- `LHO_MEADOWVAL = 3` (main.c:46). -/
def LHO_MEADOWVAL : Int := 3

/-- `LHO_THICKETVAL = 2` (main.c:46). -/
def LHO_THICKETVAL : Int := 2

/-- `LHO_MOUNTAINVAL = 6` (main.c:46). -/
def LHO_MOUNTAINVAL : Int := 6

/-- `LHO_SUBURBVAL = 1` (main.c:47). -/
def LHO_SUBURBVAL : Int := 1

/-- `struct River` (main.c:53). -/
structure River where
  headLoc : Int
  oldHeadLoc : Int
  newRiver : Bool
deriving DecidableEq, Repr

/-- `struct Tile` (main.c:59). -/
structure Tile where
  type : Terrain
  numAdjRivers : Int
  numAdjLands : Int
deriving DecidableEq, Repr

/-- The static globals `numRows`, `numCols` (main.c:74-75), made explicit. -/
structure Cfg where
  numRows : Int
  numCols : Int
deriving DecidableEq, Repr

/-- `struct Grid` (main.c:65); the tile matrix is a total function from
(row, column) to `Tile`. -/
structure Grid where
  tile : Int → Int → Tile
  river : River
  numFilledTiles : Int
  maxTiles : Int
  full : Bool
  val : Int

/-- `landValue` as assigned by `init_landscape` (main.c:84-108). -/
def landValue : Landscape → Int
  | .LHO_MEADOW => LHO_MEADOWVAL
  | .LHO_THICKET => LHO_THICKETVAL
  | .LHO_MOUNTAIN => LHO_MOUNTAINVAL
  | .LHO_SUBURB => LHO_SUBURBVAL

/-- `maxTileVal` as assigned by `init_landscape` (main.c:84-108):
`3*` the per-tile value, except `4*` for mountains. -/
def maxTileVal : Landscape → Int
  | .LHO_MEADOW => 3 * LHO_MEADOWVAL
  | .LHO_THICKET => 3 * LHO_THICKETVAL
  | .LHO_MOUNTAIN => 4 * LHO_MOUNTAINVAL
  | .LHO_SUBURB => 3 * LHO_SUBURBVAL

/-- `get_row_idx` (main.c:111): `linIndex / numCols` with C (truncating)
division. -/
def get_row_idx (cfg : Cfg) (linIndex : Int) : Int :=
  linIndex.tdiv cfg.numCols

/-- `get_col_idx` (main.c:117): `linIndex % numCols` with C (truncating)
remainder. -/
def get_col_idx (cfg : Cfg) (linIndex : Int) : Int :=
  linIndex.tmod cfg.numCols

/-- `allocate_grid` (main.c:134): all cells empty with zeroed adjacency
counters, no river yet. -/
def allocate_grid (cfg : Cfg) : Grid where
  tile := fun _ _ => ⟨.LHO_EMPTY, 0, 0⟩
  river := ⟨-1, -1, true⟩
  numFilledTiles := 0
  maxTiles := cfg.numRows * cfg.numCols
  full := false
  val := -1

/-- Apply `f` to the single tile at (row `r`, column `c`): the common
shape of every `grid->grid[r][c].field = ...;` statement. -/
def tileUpdate (g : Grid) (r c : Int) (f : Tile → Tile) : Grid :=
  { g with tile := fun r' c' =>
      if r' = r ∧ c' = c then f (g.tile r' c') else g.tile r' c' }

/-- Write the terrain kind of the cell at (row `r`, column `c`):
models `grid->grid[r][c].type = t;`. -/
def setType (g : Grid) (r c : Int) (t : Terrain) : Grid :=
  tileUpdate g r c fun tl => { tl with type := t }

/-- Add `d` to `numAdjRivers` of the cell at (row `r`, column `c`):
models `grid->grid[r][c].numAdjRivers += d;`. -/
def bumpAdjRivers (g : Grid) (r c d : Int) : Grid :=
  tileUpdate g r c fun tl => { tl with numAdjRivers := tl.numAdjRivers + d }

/-- Add `d` to `numAdjLands` of the cell at (row `r`, column `c`):
models `grid->grid[r][c].numAdjLands += d;`. -/
def bumpAdjLands (g : Grid) (r c d : Int) : Grid :=
  tileUpdate g r c fun tl => { tl with numAdjLands := tl.numAdjLands + d }

/-- The four guarded neighbour updates of `numAdjRivers` around cell
(`i`, `j`), shared verbatim by `add_river` (main.c:299-314, with `d = 1`)
and `remove_terrain` (main.c:348-363, with `d = -1`). -/
def adjRiversAround (cfg : Cfg) (i j d : Int) (g : Grid) : Grid :=
  let g := if i > 0 then bumpAdjRivers g (i - 1) j d else g
  let g := if i < cfg.numRows - 1 then bumpAdjRivers g (i + 1) j d else g
  let g := if j > 0 then bumpAdjRivers g i (j - 1) d else g
  let g := if j < cfg.numCols - 1 then bumpAdjRivers g i (j + 1) d else g
  g

/-- The four guarded neighbour updates of `numAdjLands` around cell
(`i`, `j`), shared verbatim by `add_land` (main.c:230-245, with `d = 1`)
and `remove_terrain` (main.c:364-380, with `d = -1`). -/
def adjLandsAround (cfg : Cfg) (i j d : Int) (g : Grid) : Grid :=
  let g := if i > 0 then bumpAdjLands g (i - 1) j d else g
  let g := if i < cfg.numRows - 1 then bumpAdjLands g (i + 1) j d else g
  let g := if j > 0 then bumpAdjLands g i (j - 1) d else g
  let g := if j < cfg.numCols - 1 then bumpAdjLands g i (j + 1) d else g
  g

/-- `chk_loc` (main.c:191): false outside `[0, numRows*numCols)` and on
occupied cells (`type > LHO_EMPTY`), true on empty in-range cells. -/
def chk_loc (cfg : Cfg) (linIndex : Int) (g : Grid) : Bool :=
  if linIndex < 0 ∨ linIndex > cfg.numRows * cfg.numCols - 1 then
    false
  else if (g.tile (get_row_idx cfg linIndex) (get_col_idx cfg linIndex)).type.toInt > -1 then
    false
  else
    true

/-- `add_land` (main.c:214): place a landscape tile at `linIndex` if the
location is valid, updating fill bookkeeping and the neighbours'
`numAdjLands` counters.  Returns the C function's `bool` result together
with the updated grid. -/
def add_land (cfg : Cfg) (linIndex : Int) (g : Grid) : Bool × Grid :=
  let validLoc := chk_loc cfg linIndex g
  if validLoc then
    let i := get_row_idx cfg linIndex
    let j := get_col_idx cfg linIndex
    let g := setType g i j .LHO_LANDSCAPE
    let g := { g with numFilledTiles := g.numFilledTiles + 1 }
    let g := if g.numFilledTiles = g.maxTiles then { g with full := true } else g
    (true, adjLandsAround cfg i j 1 g)
  else
    (false, g)

/-- `add_river` (main.c:254): when `newRiver` is set the target must be
on the border (and `newRiver` is cleared even if the placement later
fails); an in-progress river must extend orthogonally from `headLoc`;
on success the river cursor, fill bookkeeping and the neighbours'
`numAdjRivers` counters are updated. -/
def add_river (cfg : Cfg) (linIndex : Int) (g : Grid) : Bool × Grid :=
  let i := get_row_idx cfg linIndex
  let j := get_col_idx cfg linIndex
  let start :=
    if g.river.newRiver then
      if i = 0 ∨ j = 0 ∨ i = cfg.numRows - 1 ∨ j = cfg.numCols - 1 then
        some { g with river := { g.river with newRiver := false } }
      else
        none
    else
      some g
  match start with
  | none => (false, g)
  | some g =>
    let validLoc := chk_loc cfg linIndex g
    let curLoc := g.river.headLoc
    let ci := get_row_idx cfg curLoc
    let cj := get_col_idx cfg curLoc
    if ¬((|i - ci| = 1 ∧ |j - cj| = 0) ∨ (|i - ci| = 0 ∧ |j - cj| = 1)) ∧ curLoc > -1 then
      (false, g)
    else if validLoc then
      let g := { g with river := { headLoc := linIndex, oldHeadLoc := g.river.headLoc,
                                   newRiver := g.river.newRiver } }
      let g := setType g i j .LHO_RIVER
      let g := { g with numFilledTiles := g.numFilledTiles + 1 }
      let g := if g.numFilledTiles = g.maxTiles then { g with full := true } else g
      (true, adjRiversAround cfg i j 1 g)
    else
      (false, g)

/-- `remove_terrain` (main.c:325): empty the cell at `linIndex`,
decrement the fill count if it was occupied, pop the river cursor if the
head was removed, and decrement the neighbours' adjacency counters
matching the removed kind. -/
def remove_terrain (cfg : Cfg) (linIndex : Int) (g : Grid) : Grid :=
  let i := get_row_idx cfg linIndex
  let j := get_col_idx cfg linIndex
  let headLoc := g.river.headLoc
  let oldType := (g.tile i j).type
  let g := setType g i j .LHO_EMPTY
  let g := if oldType.toInt > -1 then { g with numFilledTiles := g.numFilledTiles - 1 } else g
  let g :=
    if headLoc = linIndex then
      let g := { g with river := { g.river with headLoc := g.river.oldHeadLoc } }
      if g.river.headLoc = -1 then { g with river := { g.river with newRiver := true } } else g
    else g
  if oldType = .LHO_RIVER then
    adjRiversAround cfg i j (-1) g
  else if oldType = .LHO_LANDSCAPE then
    adjLandsAround cfg i j (-1) g
  else
    g

/-- The contribution of cell (`i`, `j`) to `val_calc_meadow_thicket`
(main.c:387-407): a landscape tile scores `landValue` when it has no
adjacent river and `landValue * 2 * numAdjRivers` otherwise. -/
def meadowTerm (lv : Int) (g : Grid) (i j : Int) : Int :=
  if (g.tile i j).type = .LHO_LANDSCAPE then
    let numRivers := (g.tile i j).numAdjRivers
    if numRivers = 0 then lv else (lv * 2) * numRivers
  else 0

/-- `val_calc_meadow_thicket` (main.c:387): sum of `meadowTerm` over the
row-major double loop. -/
def val_calc_meadow_thicket (cfg : Cfg) (lv : Int) (g : Grid) : Int :=
  ∑ i ∈ Finset.range cfg.numRows.toNat, ∑ j ∈ Finset.range cfg.numCols.toNat,
    meadowTerm lv g i j

/-- The contribution of cell (`i`, `j`) to `val_calc_suburb`
(main.c:410-433). -/
def suburbTerm (lv : Int) (g : Grid) (i j : Int) : Int :=
  if (g.tile i j).type = .LHO_LANDSCAPE then
    let numRivers := (g.tile i j).numAdjRivers
    let numSuburbs := (g.tile i j).numAdjLands
    if numSuburbs = 4 then 2 * lv
    else if numRivers ≠ 0 then (lv * 2) * numRivers
    else lv
  else 0

/-- `val_calc_suburb` (main.c:410). -/
def val_calc_suburb (cfg : Cfg) (lv : Int) (g : Grid) : Int :=
  ∑ i ∈ Finset.range cfg.numRows.toNat, ∑ j ∈ Finset.range cfg.numCols.toNat,
    suburbTerm lv g i j

/-- The contribution of cell (`i`, `j`) to `val_calc_mountain`
(main.c:436-454): `numAdjLands * lv + numAdjLands * numAdjRivers * lv`,
read from the maintained (orthogonal) adjacency counters. -/
def mountainTerm (lv : Int) (g : Grid) (i j : Int) : Int :=
  if (g.tile i j).type = .LHO_LANDSCAPE then
    let numRivers := (g.tile i j).numAdjRivers
    let numMountains := (g.tile i j).numAdjLands
    numMountains * lv + numMountains * numRivers * lv
  else 0

/-- `val_calc_mountain` (main.c:436). -/
def val_calc_mountain (cfg : Cfg) (lv : Int) (g : Grid) : Int :=
  ∑ i ∈ Finset.range cfg.numRows.toNat, ∑ j ∈ Finset.range cfg.numCols.toNat,
    mountainTerm lv g i j

/-- `val_calc` (main.c:459): dispatch on the landscape kind. -/
def val_calc (cfg : Cfg) (lc : Landscape) (lv : Int) (g : Grid) : Int :=
  match lc with
  | .LHO_MEADOW | .LHO_THICKET => val_calc_meadow_thicket cfg lv g
  | .LHO_SUBURB => val_calc_suburb cfg lv g
  | .LHO_MOUNTAIN => val_calc_mountain cfg lv g

/-- `count_adj_rivers` (part_000:194): count the orthogonal neighbours of
(`i`, `j`) that exist and hold a river, reading tile kinds directly. -/
def count_adj_rivers (cfg : Cfg) (i j : Int) (g : Grid) : Int :=
  (if i > 0 ∧ (g.tile (i - 1) j).type = .LHO_RIVER then 1 else 0) +
  (if i < cfg.numRows - 1 ∧ (g.tile (i + 1) j).type = .LHO_RIVER then 1 else 0) +
  (if j > 0 ∧ (g.tile i (j - 1)).type = .LHO_RIVER then 1 else 0) +
  (if j < cfg.numCols - 1 ∧ (g.tile i (j + 1)).type = .LHO_RIVER then 1 else 0)

/-- `count_adj_lands` (part_000:222): count the orthogonal neighbours of
(`i`, `j`) that exist and hold a landscape tile. -/
def count_adj_lands (cfg : Cfg) (i j : Int) (g : Grid) : Int :=
  (if i > 0 ∧ (g.tile (i - 1) j).type = .LHO_LANDSCAPE then 1 else 0) +
  (if i < cfg.numRows - 1 ∧ (g.tile (i + 1) j).type = .LHO_LANDSCAPE then 1 else 0) +
  (if j > 0 ∧ (g.tile i (j - 1)).type = .LHO_LANDSCAPE then 1 else 0) +
  (if j < cfg.numCols - 1 ∧ (g.tile i (j + 1)).type = .LHO_LANDSCAPE then 1 else 0)

/-- One landscape-neighbour test of `count_adj_mountains`: 1 when cell
(`r`, `c`) holds a landscape tile. -/
def landAt (g : Grid) (r c : Int) : Int :=
  if (g.tile r c).type = .LHO_LANDSCAPE then 1 else 0

/-- `count_adj_mountains` (part_000:248-315): landscape-neighbour count
that additionally includes the diagonals that exist, written as the
source's nine-way case split on interior/edge/corner position.  (In the
repository this function is defined but never called by any
`val_calc_*`.) -/
def count_adj_mountains (cfg : Cfg) (i j : Int) (g : Grid) : Int :=
  (if i > 0 ∧ i < cfg.numRows - 1 ∧ j > 0 ∧ j < cfg.numCols - 1 then
    landAt g (i - 1) j + landAt g (i + 1) j + landAt g i (j - 1) + landAt g i (j + 1) +
    landAt g (i - 1) (j - 1) + landAt g (i - 1) (j + 1) +
    landAt g (i + 1) (j - 1) + landAt g (i + 1) (j + 1)
  else 0) +
  (if i = 0 ∧ j > 0 ∧ j < cfg.numCols - 1 then
    landAt g (i + 1) j + landAt g (i + 1) (j + 1) + landAt g (i + 1) (j - 1)
  else 0) +
  (if i = cfg.numRows - 1 ∧ j > 0 ∧ j < cfg.numCols - 1 then
    landAt g (i - 1) j + landAt g (i - 1) (j - 1) + landAt g (i - 1) (j + 1)
  else 0) +
  (if j = 0 ∧ i > 0 ∧ i < cfg.numRows - 1 then
    landAt g i (j + 1) + landAt g (i - 1) (j + 1) + landAt g (i + 1) (j + 1)
  else 0) +
  (if j = cfg.numCols - 1 ∧ i > 0 ∧ i < cfg.numRows - 1 then
    landAt g i (j - 1) + landAt g (i - 1) (j - 1) + landAt g (i + 1) (j - 1)
  else 0) +
  (if i = 0 ∧ j = 0 then
    landAt g i (j + 1) + landAt g (i + 1) j + landAt g (i + 1) (j + 1)
  else 0) +
  (if i = 0 ∧ j = cfg.numCols - 1 then
    landAt g i (j - 1) + landAt g (i + 1) j + landAt g (i + 1) (j - 1)
  else 0) +
  (if i = cfg.numRows - 1 ∧ j = 0 then
    landAt g i (j + 1) + landAt g (i - 1) j + landAt g (i - 1) (j + 1)
  else 0) +
  (if i = cfg.numRows - 1 ∧ j = cfg.numCols - 1 then
    landAt g i (j - 1) + landAt g (i - 1) j + landAt g (i - 1) (j - 1)
  else 0)

/-- The mountain score as claimed by the specification: for each
landscape tile, `adjacentLandscapes * perTileValue +
adjacentLandscapes * adjacentRivers * perTileValue`, where the landscape
neighbour count includes the diagonals that exist
(`count_adj_mountains`) and the river count is orthogonal
(`count_adj_rivers`). -/
def mountainScoreClaim (cfg : Cfg) (lv : Int) (g : Grid) : Int :=
  ∑ i ∈ Finset.range cfg.numRows.toNat, ∑ j ∈ Finset.range cfg.numCols.toNat,
    if (g.tile i j).type = .LHO_LANDSCAPE then
      count_adj_mountains cfg i j g * lv +
      count_adj_mountains cfg i j g * count_adj_rivers cfg i j g * lv
    else 0

/-- A single mutation request, as issued by callers of the engine. -/
inductive Op where
  | river (linIndex : Int)
  | land (linIndex : Int)
  | remove (linIndex : Int)
deriving DecidableEq, Repr

/-- Apply one operation, returning the C function's acceptance result
(`remove_terrain` is `void` and always counts as accepted) and the
resulting grid. -/
def Op.apply (cfg : Cfg) (op : Op) (g : Grid) : Bool × Grid :=
  match op with
  | .river i => add_river cfg i g
  | .land i => add_land cfg i g
  | .remove i => (true, remove_terrain cfg i g)

/-- Apply a sequence of operations, keeping each call's grid effect
(also the effect of calls that report failure, exactly as the C state
mutations do). -/
def applyOps (cfg : Cfg) (ops : List Op) (g : Grid) : Grid :=
  ops.foldl (fun g op => (Op.apply cfg op g).2) g

/-- True when every operation in the sequence is accepted when applied in
order. -/
def allAccepted (cfg : Cfg) (ops : List Op) (g : Grid) : Bool :=
  match ops with
  | [] => true
  | op :: rest =>
    let (ok, g') := Op.apply cfg op g
    ok && allAccepted cfg rest g'

/-- An integer index denotes a cell of the allocated grid:
`0 ≤ linIndex < numRows * numCols` (the bound test of `chk_loc`). -/
def InRange (cfg : Cfg) (linIndex : Int) : Prop :=
  0 ≤ linIndex ∧ linIndex ≤ cfg.numRows * cfg.numCols - 1

instance (cfg : Cfg) (linIndex : Int) : Decidable (InRange cfg linIndex) :=
  inferInstanceAs (Decidable (_ ∧ _))

/-- The border test of `add_river` (main.c:262-263) on a linear index. -/
def OnBorder (cfg : Cfg) (linIndex : Int) : Prop :=
  get_row_idx cfg linIndex = 0 ∨ get_col_idx cfg linIndex = 0 ∨
  get_row_idx cfg linIndex = cfg.numRows - 1 ∨ get_col_idx cfg linIndex = cfg.numCols - 1

instance (cfg : Cfg) (linIndex : Int) : Decidable (OnBorder cfg linIndex) :=
  inferInstanceAs (Decidable (_ ∨ _))

/-- The orthogonal-adjacency test of `add_river` (main.c:279-283) between
two linear indices. -/
def AdjacentIdx (cfg : Cfg) (a b : Int) : Prop :=
  (|get_row_idx cfg a - get_row_idx cfg b| = 1 ∧ |get_col_idx cfg a - get_col_idx cfg b| = 0) ∨
  (|get_row_idx cfg a - get_row_idx cfg b| = 0 ∧ |get_col_idx cfg a - get_col_idx cfg b| = 1)

instance (cfg : Cfg) (a b : Int) : Decidable (AdjacentIdx cfg a b) :=
  inferInstanceAs (Decidable (_ ∨ _))

/-- `l` witnesses that the river tiles of `g` form one simple path:
its members are distinct in-range indices, consecutive members are
orthogonally adjacent, its first member lies on the border, and the
in-range river tiles of `g` are exactly its members. -/
def IsRiverTrail (cfg : Cfg) (g : Grid) (l : List Int) : Prop :=
  l.Nodup ∧
  (∀ a ∈ l, InRange cfg a) ∧
  List.Chain' (AdjacentIdx cfg) l ∧
  (∀ a ∈ l.head?, OnBorder cfg a) ∧
  (∀ a, InRange cfg a →
    ((g.tile (get_row_idx cfg a) (get_col_idx cfg a)).type = .LHO_RIVER ↔ a ∈ l))

/-- The number of in-range cells whose kind is not `LHO_EMPTY`. -/
def countNonEmpty (cfg : Cfg) (g : Grid) : Int :=
  ∑ p ∈ Finset.range cfg.numRows.toNat ×ˢ Finset.range cfg.numCols.toNat,
    if (g.tile p.1 p.2).type = .LHO_EMPTY then 0 else 1

/-- The fill/capacity invariant of the specification: `full` is exactly
`numFilledTiles = maxTiles`, and `numFilledTiles` counts the non-empty
tiles. -/
def FillInv (cfg : Cfg) (g : Grid) : Prop :=
  (g.full = true ↔ g.numFilledTiles = g.maxTiles) ∧
  g.numFilledTiles = countNonEmpty cfg g

instance (cfg : Cfg) (g : Grid) : Decidable (FillInv cfg g) :=
  inferInstanceAs (Decidable (_ ∧ _))

/-- Every cell outside the allocated block is empty (the allocated C
array simply has no such cells; reachable grids of the embedding satisfy
this). -/
def OuterBlank (cfg : Cfg) (g : Grid) : Prop :=
  ∀ r c : Int, ¬(0 ≤ r ∧ r < cfg.numRows ∧ 0 ≤ c ∧ c < cfg.numCols) →
    (g.tile r c).type = .LHO_EMPTY

/-- The (row, column) pairs hit by the four guarded neighbour updates of
`adjLandsAround cfg i j`. -/
def NearLands (cfg : Cfg) (i j r c : Int) : Prop :=
  (i > 0 ∧ r = i - 1 ∧ c = j) ∨ (i < cfg.numRows - 1 ∧ r = i + 1 ∧ c = j) ∨
  (j > 0 ∧ r = i ∧ c = j - 1) ∨ (j < cfg.numCols - 1 ∧ r = i ∧ c = j + 1)

instance (cfg : Cfg) (i j r c : Int) : Decidable (NearLands cfg i j r c) :=
  inferInstanceAs (Decidable (_ ∨ _))

/-- Strengthened river invariant carried through the `add_river`
induction: `l` is a river trail of `g`, `headLoc` is the last placed
river tile (or none for the empty trail), and `newRiver` holds exactly
for the empty trail. -/
def RiverReach (cfg : Cfg) (g : Grid) (l : List Int) : Prop :=
  IsRiverTrail cfg g l ∧
  (l = [] → g.river.headLoc = -1) ∧
  (∀ a, l.getLast? = some a → g.river.headLoc = a) ∧
  g.river.newRiver = l.isEmpty

/-- `enum ZigZag` (main.c:49). -/
inductive ZigZag where
  | LHO_UP
  | LHO_DOWN
  | LHO_LEFT
  | LHO_RIGHT
deriving DecidableEq, Repr

/-- The local variables of the `heuristic_grid` while loop
(main.c:551-558). -/
structure ZigState where
  i : Int
  j : Int
  firstLoop : Bool
  zigLocalDir : ZigZag
  zigNextDir : ZigZag
  zigOverallDir : ZigZag
deriving Repr

/-- One iteration of the `heuristic_grid` while body (main.c:560-615):
write a river at (`i`, `j`), compute `done`, move per `zigLocalDir`, and
apply the two boundary bounces.  Returns the grid, the next loop state
and the `done` flag. -/
def heuristic_step (cfg : Cfg) (g : Grid) (s : ZigState) : Grid × ZigState × Bool :=
  let g := setType g s.i s.j .LHO_RIVER
  let done := s.j = cfg.numCols - 1
  let s :=
    match s.zigLocalDir with
    | .LHO_RIGHT =>
      { s with j := s.j + 1, zigLocalDir := s.zigNextDir,
               zigNextDir := if s.zigOverallDir = ZigZag.LHO_DOWN then ZigZag.LHO_DOWN else ZigZag.LHO_UP }
    | .LHO_LEFT =>
      { s with j := s.j - 1, zigLocalDir := s.zigNextDir,
               zigNextDir := if s.zigOverallDir = ZigZag.LHO_DOWN then ZigZag.LHO_DOWN else ZigZag.LHO_UP }
    | .LHO_DOWN => { s with i := s.i + 1, zigLocalDir := .LHO_RIGHT }
    | .LHO_UP => { s with i := s.i - 1, zigLocalDir := .LHO_RIGHT }
  let s :=
    if s.i = cfg.numRows then
      { s with zigOverallDir := .LHO_UP, zigNextDir := .LHO_UP, i := s.i - 2 }
    else s
  let s :=
    if s.i = -1 ∧ s.firstLoop = false then
      { s with zigOverallDir := .LHO_DOWN, zigNextDir := .LHO_DOWN, i := s.i + 2 }
    else s
  (g, { s with firstLoop := false }, done)

/-- The `heuristic_grid` while loop with explicit fuel (the C loop runs
until `done`; the fuel below suffices for every configuration on which
the C loop terminates, and a fuel-exhausted run just stops early). -/
def heuristic_loop (cfg : Cfg) : Nat → Grid → ZigState → Grid
  | 0, g, _ => g
  | fuel + 1, g, s =>
    let (g, s, done) := heuristic_step cfg g s
    if done then g else heuristic_loop cfg fuel g s

/-- `heuristic_grid` (main.c:540-618): set every allocated cell to
landscape, then carve a zig-zag river from the top-left corner. -/
def heuristic_grid (cfg : Cfg) (g : Grid) : Grid :=
  let g := { g with tile := fun r c =>
      if 0 ≤ r ∧ r < cfg.numRows ∧ 0 ≤ c ∧ c < cfg.numCols then
        { g.tile r c with type := .LHO_LANDSCAPE }
      else (g.tile r c) }
  heuristic_loop cfg (2 * cfg.numCols.toNat + 2) g
    { i := 0, j := 0, firstLoop := true,
      zigLocalDir := .LHO_RIGHT, zigNextDir := .LHO_DOWN, zigOverallDir := .LHO_DOWN }

/-- The globals threaded through the search: `bestVal` (main.c:81) and
`initial_recursion` (main.c:622). -/
structure SState where
  bestVal : Int
  initialRec : Bool
deriving DecidableEq, Repr

/-- The mutable locals of one `recurse_grid` activation: `thisGrid`,
`currentBest`, `bestGrid`, the shared globals, and the log of values
assigned to `bestVal`. -/
structure LoopSt where
  thisGrid : Grid
  curB : Int
  bestG : Grid
  ss : SState
  trace : List Int

/-- One candidate placement of the `recurse_grid` double loop
(main.c:668-704): try the placement on `thisGrid`; when accepted, copy
the grid, undo the placement, recurse on the copy, and adopt the
returned grid when its value beats `currentBest` (also storing it into
the shared `bestVal`).  `recur` is the recursive call at the next fuel
level. -/
def try_place (cfg : Cfg) (lc : Landscape) (lv : Int)
    (recur : Grid → SState → Grid × SState × List Int)
    (isRiver : Bool) (i : Int) (st : LoopSt) : LoopSt :=
  let (added, tg) :=
    if isRiver then add_river cfg i st.thisGrid else add_land cfg i st.thisGrid
  if added then
    let tempGrid := tg
    let thisGrid := remove_terrain cfg i tg
    let (tempGrid, ss, tr) := recur tempGrid st.ss
    let val := val_calc cfg lc lv tempGrid
    if val > st.curB then
      { thisGrid := thisGrid, curB := val, bestG := tempGrid,
        ss := { ss with bestVal := val }, trace := st.trace ++ tr ++ [val] }
    else
      { thisGrid := thisGrid, curB := st.curB, bestG := st.bestG,
        ss := ss, trace := st.trace ++ tr }
  else
    { st with thisGrid := (if isRiver then add_river cfg i st.thisGrid
                           else add_land cfg i st.thisGrid).2 }

/-- `recurse_grid` (main.c:625-714) with explicit fuel for the recursion
depth, returning the grid written back through the in/out parameter, the
final shared globals, and the ordered list of values assigned to
`bestVal` during the call. -/
def recurse_grid (cfg : Cfg) (lc : Landscape) (lv mtv : Int) :
    Nat → Grid → SState → Grid × SState × List Int
  | 0, g, ss => (g, ss, [])
  | fuel + 1, g, ss =>
    if g.full then (g, ss, [])
    else
      let val := val_calc cfg lc lv g
      let maxRemaining := mtv * (g.maxTiles - g.numFilledTiles)
      if val + maxRemaining ≤ ss.bestVal then (g, ss, [])
      else
        let st0 : LoopSt :=
          if ss.initialRec then
            let tempGrid := heuristic_grid cfg (allocate_grid cfg)
            let currentBest := val_calc cfg lc lv tempGrid
            { thisGrid := g, curB := currentBest, bestG := tempGrid,
              ss := { bestVal := currentBest, initialRec := false },
              trace := [currentBest] }
          else
            { thisGrid := g, curB := ss.bestVal, bestG := g, ss := ss, trace := [] }
        let stF := (List.range (cfg.numRows * cfg.numCols).toNat).foldl
          (fun st i =>
            try_place cfg lc lv (recurse_grid cfg lc lv mtv fuel) false (i : Int)
              (try_place cfg lc lv (recurse_grid cfg lc lv mtv fuel) true (i : Int) st))
          st0
        (stF.bestG, stF.ss, stF.trace)

/-- The inner double loop of `recurse_grid` (main.c:666-706) as one fold
over the linear indices. -/
def search_fold (cfg : Cfg) (lc : Landscape) (lv mtv : Int) (fuel : Nat) (st0 : LoopSt) : LoopSt :=
  (List.range (cfg.numRows * cfg.numCols).toNat).foldl
    (fun st i =>
      try_place cfg lc lv (recurse_grid cfg lc lv mtv fuel) false (i : Int)
        (try_place cfg lc lv (recurse_grid cfg lc lv mtv fuel) true (i : Int) st))
    st0

/-- Invariant of the `recurse_grid` loop state: the trace extends the
entry value `b0` as a non-decreasing chain ending in the shared
`bestVal`, `currentBest` stays synchronized with `bestVal`, the initial
recursion is over, a non-trivial trace means `bestGrid` realizes
`bestVal` (up to inequality) and, for a non-initial call (`ir = false`),
that `bestVal` strictly improved on `b0`. -/
def SearchInv (cfg : Cfg) (lc : Landscape) (lv : Int) (b0 : Int) (ir : Bool) (st : LoopSt) : Prop :=
  List.Chain' (· ≤ ·) (b0 :: st.trace) ∧
  (b0 :: st.trace).getLast? = some st.ss.bestVal ∧
  st.curB = st.ss.bestVal ∧
  st.ss.initialRec = false ∧
  (st.trace ≠ [] → st.ss.bestVal ≤ val_calc cfg lc lv st.bestG) ∧
  (ir = false → st.trace ≠ [] → b0 < st.ss.bestVal)

/-- The conclusions of the `recurse_grid` fuel induction: under the
entry condition on an initial call, the assignment trace is a
non-decreasing chain from the entry `bestVal` ending in the exit
`bestVal`, `initial_recursion` stays off once off, a non-trivial trace
means the returned grid's value dominates the exit `bestVal`, and a
non-initial call with a non-trivial trace strictly improves `bestVal`. -/
def RGProps (cfg : Cfg) (lc : Landscape) (lv mtv : Int) (fuel : Nat) : Prop :=
  ∀ (g : Grid) (ss : SState),
    (ss.initialRec = true →
      ss.bestVal ≤ val_calc cfg lc lv (heuristic_grid cfg (allocate_grid cfg))) →
    List.Chain' (· ≤ ·) (ss.bestVal :: (recurse_grid cfg lc lv mtv fuel g ss).2.2) ∧
    (ss.bestVal :: (recurse_grid cfg lc lv mtv fuel g ss).2.2).getLast? =
      some (recurse_grid cfg lc lv mtv fuel g ss).2.1.bestVal ∧
    (ss.initialRec = false → (recurse_grid cfg lc lv mtv fuel g ss).2.1.initialRec = false) ∧
    ((recurse_grid cfg lc lv mtv fuel g ss).2.2 ≠ [] →
      (recurse_grid cfg lc lv mtv fuel g ss).2.1.bestVal ≤
        val_calc cfg lc lv (recurse_grid cfg lc lv mtv fuel g ss).1) ∧
    (ss.initialRec = false → (recurse_grid cfg lc lv mtv fuel g ss).2.2 ≠ [] →
      ss.bestVal < (recurse_grid cfg lc lv mtv fuel g ss).2.1.bestVal)

/-! ## Basic lemmas about the single-tile updates -/

theorem tileUpdate_tile_pt (g : Grid) (r c : Int) (f : Tile → Tile) (r' c' : Int) :
    (tileUpdate g r c f).tile r' c' =
      if r' = r ∧ c' = c then f (g.tile r' c') else g.tile r' c' := rfl

theorem tileUpdate_river (g : Grid) (r c : Int) (f : Tile → Tile) :
    (tileUpdate g r c f).river = g.river := rfl

theorem tileUpdate_numFilledTiles (g : Grid) (r c : Int) (f : Tile → Tile) :
    (tileUpdate g r c f).numFilledTiles = g.numFilledTiles := rfl

theorem tileUpdate_maxTiles (g : Grid) (r c : Int) (f : Tile → Tile) :
    (tileUpdate g r c f).maxTiles = g.maxTiles := rfl

theorem tileUpdate_full (g : Grid) (r c : Int) (f : Tile → Tile) :
    (tileUpdate g r c f).full = g.full := rfl

theorem bumpAdjRivers_tile_type (g : Grid) (r0 c0 d : Int) (r c : Int) :
    ((bumpAdjRivers g r0 c0 d).tile r c).type = (g.tile r c).type := by
  simp only [bumpAdjRivers, tileUpdate]
  split <;> rfl

theorem bumpAdjLands_tile_type (g : Grid) (r0 c0 d : Int) (r c : Int) :
    ((bumpAdjLands g r0 c0 d).tile r c).type = (g.tile r c).type := by
  simp only [bumpAdjLands, tileUpdate]
  split <;> rfl

theorem condBumpRivers_tile_type {cond : Prop} [Decidable cond] (g : Grid) (r0 c0 d : Int)
    (r c : Int) :
    (((if cond then bumpAdjRivers g r0 c0 d else g)).tile r c).type = (g.tile r c).type := by
  split
  · exact bumpAdjRivers_tile_type g r0 c0 d r c
  · rfl

theorem condBumpLands_tile_type {cond : Prop} [Decidable cond] (g : Grid) (r0 c0 d : Int)
    (r c : Int) :
    (((if cond then bumpAdjLands g r0 c0 d else g)).tile r c).type = (g.tile r c).type := by
  split
  · exact bumpAdjLands_tile_type g r0 c0 d r c
  · rfl

theorem adjRiversAround_tile_type (cfg : Cfg) (i j d : Int) (g : Grid) (r c : Int) :
    ((adjRiversAround cfg i j d g).tile r c).type = (g.tile r c).type := by
  simp only [adjRiversAround]
  rw [condBumpRivers_tile_type, condBumpRivers_tile_type, condBumpRivers_tile_type,
    condBumpRivers_tile_type]

theorem adjLandsAround_tile_type (cfg : Cfg) (i j d : Int) (g : Grid) (r c : Int) :
    ((adjLandsAround cfg i j d g).tile r c).type = (g.tile r c).type := by
  simp only [adjLandsAround]
  rw [condBumpLands_tile_type, condBumpLands_tile_type, condBumpLands_tile_type,
    condBumpLands_tile_type]

theorem adjRiversAround_river (cfg : Cfg) (i j d : Int) (g : Grid) :
    (adjRiversAround cfg i j d g).river = g.river := by
  simp only [adjRiversAround]
  split <;> split <;> split <;> split <;> rfl

theorem adjLandsAround_river (cfg : Cfg) (i j d : Int) (g : Grid) :
    (adjLandsAround cfg i j d g).river = g.river := by
  simp only [adjLandsAround]
  split <;> split <;> split <;> split <;> rfl

theorem adjRiversAround_numFilledTiles (cfg : Cfg) (i j d : Int) (g : Grid) :
    (adjRiversAround cfg i j d g).numFilledTiles = g.numFilledTiles := by
  simp only [adjRiversAround]
  split <;> split <;> split <;> split <;> rfl

theorem adjLandsAround_numFilledTiles (cfg : Cfg) (i j d : Int) (g : Grid) :
    (adjLandsAround cfg i j d g).numFilledTiles = g.numFilledTiles := by
  simp only [adjLandsAround]
  split <;> split <;> split <;> split <;> rfl

theorem adjRiversAround_maxTiles (cfg : Cfg) (i j d : Int) (g : Grid) :
    (adjRiversAround cfg i j d g).maxTiles = g.maxTiles := by
  simp only [adjRiversAround]
  split <;> split <;> split <;> split <;> rfl

theorem adjLandsAround_maxTiles (cfg : Cfg) (i j d : Int) (g : Grid) :
    (adjLandsAround cfg i j d g).maxTiles = g.maxTiles := by
  simp only [adjLandsAround]
  split <;> split <;> split <;> split <;> rfl

theorem adjRiversAround_full (cfg : Cfg) (i j d : Int) (g : Grid) :
    (adjRiversAround cfg i j d g).full = g.full := by
  simp only [adjRiversAround]
  split <;> split <;> split <;> split <;> rfl

theorem adjLandsAround_full (cfg : Cfg) (i j d : Int) (g : Grid) :
    (adjLandsAround cfg i j d g).full = g.full := by
  simp only [adjLandsAround]
  split <;> split <;> split <;> split <;> rfl

/-! ## Claim theorems: rejection behaviour of `add_river` -/

theorem add_river_start_nonborder_rejected (cfg : Cfg) (g : Grid) (i : Int)
    (hnr : g.river.newRiver = true)
    (hr0 : get_row_idx cfg i ≠ 0) (hc0 : get_col_idx cfg i ≠ 0)
    (hr1 : get_row_idx cfg i ≠ cfg.numRows - 1) (hc1 : get_col_idx cfg i ≠ cfg.numCols - 1) :
    add_river cfg i g = (false, g) := by
  simp [add_river, hnr, hr0, hc0, hr1, hc1]

/-- C10: with `riverStarted` false (`newRiver` true), `add_river` at an
index whose row is neither `0` nor `numRows - 1` and whose column is
neither `0` nor `numCols - 1` returns false and leaves the grid entirely
unchanged. -/
theorem C10_first_river_nonborder_rejected_unchanged (cfg : Cfg) (g : Grid) (i : Int)
    (hnr : g.river.newRiver = true)
    (hr0 : get_row_idx cfg i ≠ 0) (hc0 : get_col_idx cfg i ≠ 0)
    (hr1 : get_row_idx cfg i ≠ cfg.numRows - 1) (hc1 : get_col_idx cfg i ≠ cfg.numCols - 1) :
    add_river cfg i g = (false, g) :=
  add_river_start_nonborder_rejected cfg g i hnr hr0 hc0 hr1 hc1

/-- Witness for C10 at a concrete input: on a fresh 3×3 grid, placing the
first river at the interior cell 4 is rejected without any state
change. -/
theorem C10_witness :
    (allocate_grid ⟨3, 3⟩).river.newRiver = true ∧
    get_row_idx ⟨3, 3⟩ 4 ≠ 0 ∧ get_col_idx ⟨3, 3⟩ 4 ≠ 0 ∧
    get_row_idx ⟨3, 3⟩ 4 ≠ (⟨3, 3⟩ : Cfg).numRows - 1 ∧
    get_col_idx ⟨3, 3⟩ 4 ≠ (⟨3, 3⟩ : Cfg).numCols - 1 ∧
    add_river ⟨3, 3⟩ 4 (allocate_grid ⟨3, 3⟩) = (false, allocate_grid ⟨3, 3⟩) :=
  ⟨rfl, by decide, by decide, by decide, by decide,
    C10_first_river_nonborder_rejected_unchanged ⟨3, 3⟩ (allocate_grid ⟨3, 3⟩) 4 rfl
      (by decide) (by decide) (by decide) (by decide)⟩

theorem chk_loc_eq_false_of_occupied (cfg : Cfg) (g : Grid) (i : Int)
    (hocc : ((g.tile (get_row_idx cfg i) (get_col_idx cfg i)).type).toInt > -1) :
    chk_loc cfg i g = false := by
  unfold chk_loc
  by_cases h1 : i < 0 ∨ i > cfg.numRows * cfg.numCols - 1
  · rw [if_pos h1]
  · rw [if_neg h1, if_pos hocc]

theorem add_river_fst_of_no_head (cfg : Cfg) (j : Int) (g : Grid)
    (hnr : g.river.newRiver = false) (hhead : g.river.headLoc = -1)
    (hvl : chk_loc cfg j g = true) : (add_river cfg j g).1 = true := by
  unfold add_river
  rw [hnr]
  simp only [Bool.false_eq_true, if_false]
  rw [if_neg (by rw [hhead]; omega : ¬(_ ∧ g.river.headLoc > -1)), if_pos hvl]

theorem add_river_clears_newRiver_on_occupied_border (cfg : Cfg) (g : Grid) (i : Int)
    (hnr : g.river.newRiver = true) (hhead : g.river.headLoc = -1)
    (hb : OnBorder cfg i)
    (hocc : ((g.tile (get_row_idx cfg i) (get_col_idx cfg i)).type).toInt > -1) :
    add_river cfg i g = (false, { g with river := { g.river with newRiver := false } }) := by
  have hvl : chk_loc cfg i ({ g with river := { g.river with newRiver := false } }) = false :=
    chk_loc_eq_false_of_occupied cfg _ i hocc
  unfold add_river
  rw [hnr]
  simp only [if_true]
  rw [if_pos (show _ ∨ _ from hb)]
  simp only
  rw [if_neg (by rw [show ({ g with river := { g.river with newRiver := false } } : Grid).river.headLoc = -1 from hhead]; omega : ¬(_ ∧ _ > (-1 : Int))), if_neg (by rw [hvl]; simp : ¬chk_loc cfg i { g with river := { g.river with newRiver := false } } = true)]

/-- C7: with `riverStarted` false and `riverHead` none, `add_river` at a
border cell that is occupied returns false yet clears `newRiver` (and
only that); afterwards `add_river` succeeds at every placeable cell,
border or not. -/
theorem C7_failed_border_start_clears_newRiver (cfg : Cfg) (g : Grid) (i : Int)
    (hnr : g.river.newRiver = true) (hhead : g.river.headLoc = -1)
    (hb : OnBorder cfg i)
    (hocc : ((g.tile (get_row_idx cfg i) (get_col_idx cfg i)).type).toInt > -1) :
    add_river cfg i g = (false, { g with river := { g.river with newRiver := false } }) ∧
    ∀ j, chk_loc cfg j { g with river := { g.river with newRiver := false } } = true →
      (add_river cfg j { g with river := { g.river with newRiver := false } }).1 = true := by
  refine ⟨add_river_clears_newRiver_on_occupied_border cfg g i hnr hhead hb hocc, ?_⟩
  intro j hj
  exact add_river_fst_of_no_head cfg j _ rfl hhead hj

/-- Witness for C7 at a concrete input: on a 3×3 grid whose border cell 0
holds a landscape tile, the first `add_river` at 0 fails but clears
`newRiver`, after which `add_river` at the interior cell 4 succeeds. -/
theorem C7_witness :
    ((add_land ⟨3, 3⟩ 0 (allocate_grid ⟨3, 3⟩)).2.river.newRiver = true ∧
      (add_land ⟨3, 3⟩ 0 (allocate_grid ⟨3, 3⟩)).2.river.headLoc = -1 ∧
      OnBorder ⟨3, 3⟩ 0 ∧
      (((add_land ⟨3, 3⟩ 0 (allocate_grid ⟨3, 3⟩)).2.tile (get_row_idx ⟨3, 3⟩ 0)
        (get_col_idx ⟨3, 3⟩ 0)).type).toInt > -1) ∧
    (add_river ⟨3, 3⟩ 4
      { (add_land ⟨3, 3⟩ 0 (allocate_grid ⟨3, 3⟩)).2 with
        river := { (add_land ⟨3, 3⟩ 0 (allocate_grid ⟨3, 3⟩)).2.river with
                   newRiver := false } }).1 = true := by
  refine ⟨⟨by decide, by decide, by decide, by decide⟩, ?_⟩
  exact (C7_failed_border_start_clears_newRiver ⟨3, 3⟩
    (add_land ⟨3, 3⟩ 0 (allocate_grid ⟨3, 3⟩)).2 0 (by decide) (by decide) (by decide)
    (by decide)).2 4 (by decide)

/-! ## Out-of-range indices (C8) -/

theorem oob_row_col (cfg : Cfg) (i : Int) (_hrows : 0 ≤ cfg.numRows) (hcols : 0 < cfg.numCols)
    (hi : i < 0 ∨ i > cfg.numRows * cfg.numCols - 1) :
    ¬(0 ≤ get_row_idx cfg i ∧ get_row_idx cfg i < cfg.numRows ∧
      0 ≤ get_col_idx cfg i ∧ get_col_idx cfg i < cfg.numCols) := by
  rintro ⟨h1, h2, h3, h4⟩
  have hid := Int.tdiv_add_tmod i cfg.numCols
  rw [get_row_idx] at h1 h2
  rw [get_col_idx] at h3 h4
  rcases hi with hi | hi
  · nlinarith
  · nlinarith

theorem set_empty_of_empty (g : Grid) (r c : Int)
    (hpt : (g.tile r c).type = .LHO_EMPTY) : setType g r c .LHO_EMPTY = g := by
  unfold setType tileUpdate
  have hf : (fun r' c' => if r' = r ∧ c' = c then
      { g.tile r' c' with type := Terrain.LHO_EMPTY } else (g.tile r' c')) = g.tile := by
    funext r' c'
    by_cases hp : r' = r ∧ c' = c
    · obtain ⟨rfl, rfl⟩ := hp
      rw [if_pos ⟨rfl, rfl⟩]
      rcases htl : g.tile r' c' with ⟨ty, nr, nl⟩
      rw [htl] at hpt
      obtain rfl : ty = Terrain.LHO_EMPTY := hpt
      rfl
    · rw [if_neg hp]
  rw [hf]

theorem remove_terrain_eq_of_empty (cfg : Cfg) (g : Grid) (i : Int)
    (hpt : (g.tile (get_row_idx cfg i) (get_col_idx cfg i)).type = .LHO_EMPTY)
    (hhead : g.river.headLoc ≠ i) :
    remove_terrain cfg i g = g := by
  unfold remove_terrain
  dsimp only
  rw [hpt]
  simp only [Terrain.toInt]
  rw [if_neg (by omega : ¬(-1 : Int) > -1), if_neg hhead]
  simp only [reduceCtorEq, if_false]
  exact set_empty_of_empty g _ _ hpt

theorem add_river_no_start_not_valid (cfg : Cfg) (i : Int) (g : Grid)
    (hnr : g.river.newRiver = false) (hvl : chk_loc cfg i g = false) :
    add_river cfg i g = (false, g) := by
  unfold add_river
  rw [hnr]
  simp only [Bool.false_eq_true, if_false]
  by_cases hadj : ¬((|get_row_idx cfg i - get_row_idx cfg g.river.headLoc| = 1 ∧
      |get_col_idx cfg i - get_col_idx cfg g.river.headLoc| = 0) ∨
      (|get_row_idx cfg i - get_row_idx cfg g.river.headLoc| = 0 ∧
      |get_col_idx cfg i - get_col_idx cfg g.river.headLoc| = 1)) ∧ g.river.headLoc > -1
  · rw [if_pos hadj]
  · rw [if_neg hadj, hvl]
    simp

theorem add_river_started_border_not_valid (cfg : Cfg) (i : Int) (g : Grid)
    (hnr : g.river.newRiver = true)
    (hb : get_row_idx cfg i = 0 ∨ get_col_idx cfg i = 0 ∨
      get_row_idx cfg i = cfg.numRows - 1 ∨ get_col_idx cfg i = cfg.numCols - 1)
    (hvl : chk_loc cfg i { g with river := { g.river with newRiver := false } } = false) :
    add_river cfg i g = (false, { g with river := { g.river with newRiver := false } }) := by
  unfold add_river
  rw [hnr]
  simp only [if_true, if_pos hb]
  by_cases hadj : ¬((|get_row_idx cfg i -
      get_row_idx cfg ({ g with river := { g.river with newRiver := false } } : Grid).river.headLoc| = 1 ∧
      |get_col_idx cfg i -
      get_col_idx cfg ({ g with river := { g.river with newRiver := false } } : Grid).river.headLoc| = 0) ∨
      (|get_row_idx cfg i -
      get_row_idx cfg ({ g with river := { g.river with newRiver := false } } : Grid).river.headLoc| = 0 ∧
      |get_col_idx cfg i -
      get_col_idx cfg ({ g with river := { g.river with newRiver := false } } : Grid).river.headLoc| = 1)) ∧
      ({ g with river := { g.river with newRiver := false } } : Grid).river.headLoc > -1
  · rw [if_pos hadj]
  · rw [if_neg hadj, hvl]
    simp

/-- C8 counterexample: on a fresh 3×3 grid the out-of-range index 9 makes
`add_river` return false, yet the grid is modified: `newRiver` flips from
true to false, contradicting "add_river returns false without modifying
the grid". -/
theorem C8_counterexample :
    ((9 : Int) > (⟨3, 3⟩ : Cfg).numRows * (⟨3, 3⟩ : Cfg).numCols - 1) ∧
    (add_river ⟨3, 3⟩ 9 (allocate_grid ⟨3, 3⟩)).1 = false ∧
    (allocate_grid ⟨3, 3⟩).river.newRiver = true ∧
    (add_river ⟨3, 3⟩ 9 (allocate_grid ⟨3, 3⟩)).2.river.newRiver = false :=
  ⟨by decide, by decide, by decide, by decide⟩

/-- C8 (amended): for every index outside `[0, rows*cols)`, `chk_loc`
returns false and `add_land` returns false without modification;
`add_river` also returns false, but it either leaves the grid unchanged
or (when `newRiver` was set and the index's computed row or column hits a
border value) merely clears `newRiver`; `remove_terrain` has no bounds
check of its own, but on grids whose out-of-range cells are blank and
whose river head is not the removed index it leaves the grid unchanged. -/
theorem C8_out_of_range_rejected (cfg : Cfg) (g : Grid) (i : Int)
    (hrows : 0 ≤ cfg.numRows) (hcols : 0 < cfg.numCols)
    (hi : i < 0 ∨ i > cfg.numRows * cfg.numCols - 1) :
    chk_loc cfg i g = false ∧
    add_land cfg i g = (false, g) ∧
    (add_river cfg i g).1 = false ∧
    ((add_river cfg i g).2 = g ∨
      (add_river cfg i g).2 = { g with river := { g.river with newRiver := false } }) ∧
    (OuterBlank cfg g → g.river.headLoc ≠ i → remove_terrain cfg i g = g) := by
  have hchk : ∀ g' : Grid, chk_loc cfg i g' = false := by
    intro g'
    unfold chk_loc
    rw [if_pos hi]
  have hriver : (add_river cfg i g).1 = false ∧
      ((add_river cfg i g).2 = g ∨
        (add_river cfg i g).2 = { g with river := { g.river with newRiver := false } }) := by
    cases hnr : g.river.newRiver
    · rw [add_river_no_start_not_valid cfg i g hnr (hchk g)]
      exact ⟨rfl, Or.inl rfl⟩
    · by_cases hb : get_row_idx cfg i = 0 ∨ get_col_idx cfg i = 0 ∨
        get_row_idx cfg i = cfg.numRows - 1 ∨ get_col_idx cfg i = cfg.numCols - 1
      · rw [add_river_started_border_not_valid cfg i g hnr hb (hchk _)]
        exact ⟨rfl, Or.inr rfl⟩
      · rw [add_river_start_nonborder_rejected cfg g i hnr]
        · exact ⟨rfl, Or.inl rfl⟩
        · tauto
        · tauto
        · tauto
        · tauto
  refine ⟨hchk g, ?_, hriver.1, hriver.2, ?_⟩
  · unfold add_land
    rw [hchk g]
    simp
  · intro hblank hhead
    exact remove_terrain_eq_of_empty cfg g i
      (hblank _ _ (oob_row_col cfg i hrows hcols hi)) hhead

/-- Witness for C8 applied at the concrete out-of-range index 9 on a
fresh 3×3 grid. -/
theorem C8_witness :
    ((0 : Int) ≤ 3 ∧ (0 : Int) < 3 ∧ ((9 : Int) < 0 ∨ (9 : Int) > 3 * 3 - 1)) ∧
    (chk_loc ⟨3, 3⟩ 9 (allocate_grid ⟨3, 3⟩) = false ∧
      add_land ⟨3, 3⟩ 9 (allocate_grid ⟨3, 3⟩) = (false, allocate_grid ⟨3, 3⟩) ∧
      (add_river ⟨3, 3⟩ 9 (allocate_grid ⟨3, 3⟩)).1 = false ∧
      ((add_river ⟨3, 3⟩ 9 (allocate_grid ⟨3, 3⟩)).2 = allocate_grid ⟨3, 3⟩ ∨
        (add_river ⟨3, 3⟩ 9 (allocate_grid ⟨3, 3⟩)).2 =
          { allocate_grid ⟨3, 3⟩ with
            river := { (allocate_grid ⟨3, 3⟩).river with newRiver := false } }) ∧
      (OuterBlank ⟨3, 3⟩ (allocate_grid ⟨3, 3⟩) →
        (allocate_grid ⟨3, 3⟩).river.headLoc ≠ 9 →
        remove_terrain ⟨3, 3⟩ 9 (allocate_grid ⟨3, 3⟩) = allocate_grid ⟨3, 3⟩)) :=
  ⟨⟨by decide, by decide, by decide⟩,
    C8_out_of_range_rejected ⟨3, 3⟩ (allocate_grid ⟨3, 3⟩) 9 (by decide) (by decide) (by decide)⟩

/-! ## The river cursor across `add_river`/`remove_terrain` (C5) -/

theorem remove_terrain_river_of_head (cfg : Cfg) (i : Int) (g : Grid)
    (hh : g.river.headLoc = i) :
    (remove_terrain cfg i g).river =
      ⟨g.river.oldHeadLoc, g.river.oldHeadLoc,
        if g.river.oldHeadLoc = -1 then true else g.river.newRiver⟩ := by
  by_cases hold : g.river.oldHeadLoc = -1
  all_goals rcases hty : (g.tile (get_row_idx cfg i) (get_col_idx cfg i)).type
  all_goals simp [remove_terrain, hh, hold, hty, adjRiversAround_river, adjLandsAround_river,
    setType, tileUpdate, Terrain.toInt]

theorem add_river_accepted_river (cfg : Cfg) (i : Int) (g : Grid)
    (h : (add_river cfg i g).1 = true) :
    (add_river cfg i g).2.river = ⟨i, g.river.headLoc, false⟩ := by
  cases hnr : g.river.newRiver
  · unfold add_river at h ⊢
    rw [hnr] at h ⊢
    simp only [Bool.false_eq_true, if_false] at h ⊢
    by_cases hadj : ¬((|get_row_idx cfg i - get_row_idx cfg g.river.headLoc| = 1 ∧
        |get_col_idx cfg i - get_col_idx cfg g.river.headLoc| = 0) ∨
        (|get_row_idx cfg i - get_row_idx cfg g.river.headLoc| = 0 ∧
        |get_col_idx cfg i - get_col_idx cfg g.river.headLoc| = 1)) ∧ g.river.headLoc > -1
    · rw [if_pos hadj] at h
      exact absurd h (by simp)
    · rw [if_neg hadj] at h ⊢
      by_cases hvl : chk_loc cfg i g = true
      · rw [if_pos hvl]
        simp only [adjRiversAround_river]
        split <;> simp [setType, tileUpdate, hnr]
      · rw [if_neg hvl] at h
        exact absurd h (by simp)
  · unfold add_river at h ⊢
    rw [hnr] at h ⊢
    simp only [if_true] at h ⊢
    by_cases hb : get_row_idx cfg i = 0 ∨ get_col_idx cfg i = 0 ∨
        get_row_idx cfg i = cfg.numRows - 1 ∨ get_col_idx cfg i = cfg.numCols - 1
    · rw [if_pos hb] at h ⊢
      simp only at h ⊢
      by_cases hadj : ¬((|get_row_idx cfg i - get_row_idx cfg
          ({ g with river := { g.river with newRiver := false } } : Grid).river.headLoc| = 1 ∧
          |get_col_idx cfg i - get_col_idx cfg
          ({ g with river := { g.river with newRiver := false } } : Grid).river.headLoc| = 0) ∨
          (|get_row_idx cfg i - get_row_idx cfg
          ({ g with river := { g.river with newRiver := false } } : Grid).river.headLoc| = 0 ∧
          |get_col_idx cfg i - get_col_idx cfg
          ({ g with river := { g.river with newRiver := false } } : Grid).river.headLoc| = 1)) ∧
          ({ g with river := { g.river with newRiver := false } } : Grid).river.headLoc > -1
      · rw [if_pos hadj] at h
        exact absurd h (by simp)
      · rw [if_neg hadj] at h ⊢
        by_cases hvl : chk_loc cfg i { g with river := { g.river with newRiver := false } } = true
        · rw [if_pos hvl]
          simp only [adjRiversAround_river]
          split <;> simp [setType, tileUpdate]
        · rw [if_neg hvl] at h
          exact absurd h (by simp)
    · rw [if_neg hb] at h
      exact absurd h (by simp)

/-- C5 counterexample: on a 1×3 grid, after accepted river placements at
0 and 1 the state has `oldHeadLoc = 0`; a further accepted `add_river 2`
followed by `remove_terrain 2` leaves `oldHeadLoc = 1`, so the
round-trip does not restore `previousRiverHead`. -/
theorem C5_counterexample :
    (allAccepted ⟨1, 3⟩ [.river 0, .river 1] (allocate_grid ⟨1, 3⟩) = true) ∧
    (add_river ⟨1, 3⟩ 2 (applyOps ⟨1, 3⟩ [.river 0, .river 1] (allocate_grid ⟨1, 3⟩))).1 = true ∧
    (applyOps ⟨1, 3⟩ [.river 0, .river 1] (allocate_grid ⟨1, 3⟩)).river.oldHeadLoc = 0 ∧
    (remove_terrain ⟨1, 3⟩ 2
      (add_river ⟨1, 3⟩ 2 (applyOps ⟨1, 3⟩ [.river 0, .river 1]
        (allocate_grid ⟨1, 3⟩))).2).river.oldHeadLoc = 1 :=
  ⟨by decide, by decide, by decide, by decide⟩

/-- C5 (amended): for every grid state in which `newRiver` holds exactly
when `headLoc` is none (true of every reachable state) and every accepted
`add_river i`, the subsequent `remove_terrain i` restores `headLoc` and
`newRiver` exactly; `oldHeadLoc` however ends at the prior `headLoc`, not
at the prior `oldHeadLoc`. -/
theorem C5_river_roundtrip_restores_head_and_started (cfg : Cfg) (g : Grid) (i : Int)
    (hinv : g.river.newRiver = true ↔ g.river.headLoc = -1)
    (h : (add_river cfg i g).1 = true) :
    (remove_terrain cfg i (add_river cfg i g).2).river.headLoc = g.river.headLoc ∧
    (remove_terrain cfg i (add_river cfg i g).2).river.newRiver = g.river.newRiver ∧
    (remove_terrain cfg i (add_river cfg i g).2).river.oldHeadLoc = g.river.headLoc := by
  have hr := add_river_accepted_river cfg i g h
  have hh : (add_river cfg i g).2.river.headLoc = i := by rw [hr]
  rw [remove_terrain_river_of_head cfg i _ hh, hr]
  refine ⟨rfl, ?_, rfl⟩
  by_cases hh0 : g.river.headLoc = -1
  · simp only [hh0, if_true, if_pos]
    exact (hinv.mpr hh0).symm
  · simp only [if_neg hh0]
    cases hnr2 : g.river.newRiver
    · rfl
    · exact absurd (hinv.mp hnr2) hh0

/-- Witness for C5 (amended) at a concrete input: a fresh 1×1 grid, an
accepted first river placement at 0, then its removal. -/
theorem C5_witness :
    (((allocate_grid ⟨1, 1⟩).river.newRiver = true ↔
        (allocate_grid ⟨1, 1⟩).river.headLoc = -1) ∧
      (add_river ⟨1, 1⟩ 0 (allocate_grid ⟨1, 1⟩)).1 = true) ∧
    ((remove_terrain ⟨1, 1⟩ 0 (add_river ⟨1, 1⟩ 0 (allocate_grid ⟨1, 1⟩)).2).river.headLoc =
        (allocate_grid ⟨1, 1⟩).river.headLoc ∧
      (remove_terrain ⟨1, 1⟩ 0 (add_river ⟨1, 1⟩ 0 (allocate_grid ⟨1, 1⟩)).2).river.newRiver =
        (allocate_grid ⟨1, 1⟩).river.newRiver ∧
      (remove_terrain ⟨1, 1⟩ 0 (add_river ⟨1, 1⟩ 0 (allocate_grid ⟨1, 1⟩)).2).river.oldHeadLoc =
        (allocate_grid ⟨1, 1⟩).river.headLoc) :=
  ⟨⟨by decide, by decide⟩,
    C5_river_roundtrip_restores_head_and_started ⟨1, 1⟩ (allocate_grid ⟨1, 1⟩) 0
      (by decide) (by decide)⟩

/-! ## Mountain scoring and the pruning bound (C1, C2) -/

/-- C1: the mountain score computed by the code differs from the
specified diagonal-inclusive formula.  On a 2×2 mountain grid with
landscape tiles at the diagonally-adjacent cells 0 and 3 (both
placements accepted), `val_calc_mountain` over the maintained
orthogonal-only counters returns 0, while the claimed score — built from
`count_adj_mountains`, the repository's own diagonal-inclusive
neighbour count, which no scoring function ever calls — is 12. -/
theorem C1_mountain_diagonals_not_scored :
    allAccepted ⟨2, 2⟩ [.land 0, .land 3] (allocate_grid ⟨2, 2⟩) = true ∧
    val_calc ⟨2, 2⟩ .LHO_MOUNTAIN LHO_MOUNTAINVAL
      (applyOps ⟨2, 2⟩ [.land 0, .land 3] (allocate_grid ⟨2, 2⟩)) = 0 ∧
    mountainScoreClaim ⟨2, 2⟩ LHO_MOUNTAINVAL
      (applyOps ⟨2, 2⟩ [.land 0, .land 3] (allocate_grid ⟨2, 2⟩)) = 12 ∧
    (0 : Int) ≠ 12 :=
  ⟨by decide, by decide, by decide, by decide⟩

/-- C2: the pruning bound is not a valid over-estimate.  On a 3×3 meadow
grid, the accepted sequence river 0, river 1, then landscape at
2, 3, 5, 6, 7, 8 yields a partial grid `g` with score 24 and one empty
cell, so the claimed bound is `24 + maxValuePerTile * 1 = 33`; yet the
accepted `add_river 4` completes the grid with score 36 > 33, so a
subtree pruned at `bestValueSoFar` between 33 and 35 would discard a
strictly better completion. -/
theorem C2_pruning_bound_not_sound :
    allAccepted ⟨3, 3⟩ [.river 0, .river 1, .land 2, .land 3, .land 5, .land 6, .land 7, .land 8]
      (allocate_grid ⟨3, 3⟩) = true ∧
    (add_river ⟨3, 3⟩ 4 (applyOps ⟨3, 3⟩
      [.river 0, .river 1, .land 2, .land 3, .land 5, .land 6, .land 7, .land 8]
      (allocate_grid ⟨3, 3⟩))).1 = true ∧
    (add_river ⟨3, 3⟩ 4 (applyOps ⟨3, 3⟩
      [.river 0, .river 1, .land 2, .land 3, .land 5, .land 6, .land 7, .land 8]
      (allocate_grid ⟨3, 3⟩))).2.full = true ∧
    val_calc ⟨3, 3⟩ .LHO_MEADOW LHO_MEADOWVAL
      (add_river ⟨3, 3⟩ 4 (applyOps ⟨3, 3⟩
        [.river 0, .river 1, .land 2, .land 3, .land 5, .land 6, .land 7, .land 8]
        (allocate_grid ⟨3, 3⟩))).2 = 36 ∧
    val_calc ⟨3, 3⟩ .LHO_MEADOW LHO_MEADOWVAL
      (applyOps ⟨3, 3⟩ [.river 0, .river 1, .land 2, .land 3, .land 5, .land 6, .land 7, .land 8]
        (allocate_grid ⟨3, 3⟩)) +
      maxTileVal .LHO_MEADOW *
        ((applyOps ⟨3, 3⟩ [.river 0, .river 1, .land 2, .land 3, .land 5, .land 6, .land 7, .land 8]
          (allocate_grid ⟨3, 3⟩)).maxTiles -
         (applyOps ⟨3, 3⟩ [.river 0, .river 1, .land 2, .land 3, .land 5, .land 6, .land 7, .land 8]
          (allocate_grid ⟨3, 3⟩)).numFilledTiles) = 33 ∧
    (36 : Int) > 33 :=
  ⟨by decide, by decide, by decide, by decide, by decide, by decide⟩

/-! ## Pointwise behaviour of the landscape-adjacency updates (C6) -/

theorem condBumpLands_hit {cond : Prop} [Decidable cond] (g : Grid) {r0 c0 : Int} (d : Int)
    {r c : Int} (h : cond ∧ r = r0 ∧ c = c0) :
    (((if cond then bumpAdjLands g r0 c0 d else g)).tile r c) =
      { g.tile r c with numAdjLands := (g.tile r c).numAdjLands + d } := by
  rw [if_pos h.1]
  simp only [bumpAdjLands, tileUpdate]
  rw [if_pos h.2]

theorem condBumpLands_miss {cond : Prop} [Decidable cond] (g : Grid) {r0 c0 : Int} (d : Int)
    {r c : Int} (h : ¬(cond ∧ r = r0 ∧ c = c0)) :
    (((if cond then bumpAdjLands g r0 c0 d else g)).tile r c) = g.tile r c := by
  by_cases hc : cond
  · rw [if_pos hc]
    simp only [bumpAdjLands, tileUpdate]
    rw [if_neg fun hp => h ⟨hc, hp⟩]
  · rw [if_neg hc]

theorem adjLandsAround_tile_pt (cfg : Cfg) (i j d : Int) (g : Grid) (r c : Int) :
    (adjLandsAround cfg i j d g).tile r c =
      if NearLands cfg i j r c then
        { g.tile r c with numAdjLands := (g.tile r c).numAdjLands + d }
      else g.tile r c := by
  by_cases h1 : i > 0 ∧ r = i - 1 ∧ c = j
  all_goals by_cases h2 : i < cfg.numRows - 1 ∧ r = i + 1 ∧ c = j
  all_goals by_cases h3 : j > 0 ∧ r = i ∧ c = j - 1
  all_goals by_cases h4 : j < cfg.numCols - 1 ∧ r = i ∧ c = j + 1
  all_goals try (exfalso; omega)
  all_goals simp only [adjLandsAround]
  · rw [condBumpLands_miss _ _ h4, condBumpLands_miss _ _ h3, condBumpLands_miss _ _ h2,
      condBumpLands_hit _ _ h1, if_pos (show NearLands cfg i j r c from Or.inl h1)]
  · rw [condBumpLands_miss _ _ h4, condBumpLands_miss _ _ h3, condBumpLands_hit _ _ h2,
      condBumpLands_miss _ _ h1, if_pos (show NearLands cfg i j r c from Or.inr (Or.inl h2))]
  · rw [condBumpLands_miss _ _ h4, condBumpLands_hit _ _ h3, condBumpLands_miss _ _ h2,
      condBumpLands_miss _ _ h1, if_pos (show NearLands cfg i j r c from Or.inr (Or.inr (Or.inl h3)))]
  · rw [condBumpLands_hit _ _ h4, condBumpLands_miss _ _ h3, condBumpLands_miss _ _ h2,
      condBumpLands_miss _ _ h1, if_pos (show NearLands cfg i j r c from Or.inr (Or.inr (Or.inr h4)))]
  · rw [condBumpLands_miss _ _ h4, condBumpLands_miss _ _ h3, condBumpLands_miss _ _ h2,
      condBumpLands_miss _ _ h1,
      if_neg (show ¬NearLands cfg i j r c by
        intro hD
        rcases hD with h | h | h | h
        exacts [h1 h, h2 h, h3 h, h4 h])]

theorem setType_tile_pt (g : Grid) (r0 c0 : Int) (t : Terrain) (r c : Int) :
    (setType g r0 c0 t).tile r c =
      if r = r0 ∧ c = c0 then { g.tile r c with type := t } else g.tile r c := rfl

theorem adjLands_roundtrip_tile (cfg : Cfg) (R C : Int) (g : Grid)
    (hemp : (g.tile R C).type = .LHO_EMPTY) :
    (adjLandsAround cfg R C (-1)
      (setType (adjLandsAround cfg R C 1 (setType g R C .LHO_LANDSCAPE)) R C
        .LHO_EMPTY)).tile = g.tile := by
  funext r c
  rw [adjLandsAround_tile_pt, setType_tile_pt, adjLandsAround_tile_pt, setType_tile_pt]
  by_cases hD : NearLands cfg R C r c
  all_goals by_cases hctr : r = R ∧ c = C
  · exfalso
    rw [NearLands] at hD
    omega
  · rw [if_pos hD, if_neg hctr, if_pos hD, if_neg hctr]
    rcases hgt : g.tile r c with ⟨ty, nr, nl⟩
    dsimp only
    simp only [Tile.mk.injEq]
    refine ⟨by trivial, by trivial, by omega⟩
  · obtain ⟨rfl, rfl⟩ := hctr
    rw [if_neg hD, if_pos ⟨rfl, rfl⟩, if_neg hD, if_pos ⟨rfl, rfl⟩]
    rcases hgt : g.tile r c with ⟨ty, nr, nl⟩
    rw [hgt] at hemp
    obtain rfl : ty = Terrain.LHO_EMPTY := hemp
    rfl
  · rw [if_neg hD, if_neg hctr, if_neg hD, if_neg hctr]

theorem adjLandsAround_tile_congr (cfg : Cfg) (i j d : Int) (g1 g2 : Grid)
    (h : g1.tile = g2.tile) :
    (adjLandsAround cfg i j d g1).tile = (adjLandsAround cfg i j d g2).tile := by
  funext r c
  rw [adjLandsAround_tile_pt, adjLandsAround_tile_pt,
    show g1.tile r c = g2.tile r c from congrFun (congrFun h r) c]

theorem setType_tile_congr (g1 g2 : Grid) (r0 c0 : Int) (t : Terrain) (h : g1.tile = g2.tile) :
    (setType g1 r0 c0 t).tile = (setType g2 r0 c0 t).tile := by
  funext r c
  rw [setType_tile_pt, setType_tile_pt,
    show g1.tile r c = g2.tile r c from congrFun (congrFun h r) c]

theorem add_land_fst (cfg : Cfg) (lin : Int) (g : Grid) :
    (add_land cfg lin g).1 = chk_loc cfg lin g := by
  unfold add_land
  dsimp only
  split
  · rename_i h
    exact h.symm
  · rename_i h
    exact (Bool.not_eq_true _ ▸ (by simpa using h) : chk_loc cfg lin g = false).symm

theorem chk_loc_true_empty (cfg : Cfg) (lin : Int) (g : Grid)
    (h : chk_loc cfg lin g = true) :
    (g.tile (get_row_idx cfg lin) (get_col_idx cfg lin)).type = .LHO_EMPTY := by
  unfold chk_loc at h
  by_cases h1 : lin < 0 ∨ lin > cfg.numRows * cfg.numCols - 1
  · rw [if_pos h1] at h
    exact absurd h (by simp)
  · rw [if_neg h1] at h
    by_cases h2 : ((g.tile (get_row_idx cfg lin) (get_col_idx cfg lin)).type).toInt > -1
    · rw [if_pos h2] at h
      exact absurd h (by simp)
    · rcases hty : (g.tile (get_row_idx cfg lin) (get_col_idx cfg lin)).type
      · rfl
      · rw [hty] at h2
        exact absurd (by decide : (Terrain.LHO_RIVER).toInt > -1) h2
      · rw [hty] at h2
        exact absurd (by decide : (Terrain.LHO_LANDSCAPE).toInt > -1) h2

theorem chk_loc_true_inrange (cfg : Cfg) (lin : Int) (g : Grid)
    (h : chk_loc cfg lin g = true) :
    ¬(lin < 0 ∨ lin > cfg.numRows * cfg.numCols - 1) := by
  unfold chk_loc at h
  by_cases h1 : lin < 0 ∨ lin > cfg.numRows * cfg.numCols - 1
  · rw [if_pos h1] at h
    exact absurd h (by simp)
  · exact h1

theorem add_land_accepted_parts (cfg : Cfg) (lin : Int) (g : Grid)
    (h : chk_loc cfg lin g = true) :
    (add_land cfg lin g).2.tile =
      (adjLandsAround cfg (get_row_idx cfg lin) (get_col_idx cfg lin) 1
        (setType g (get_row_idx cfg lin) (get_col_idx cfg lin) .LHO_LANDSCAPE)).tile ∧
    (add_land cfg lin g).2.numFilledTiles = g.numFilledTiles + 1 := by
  unfold add_land
  dsimp only
  rw [if_pos h]
  constructor
  · exact adjLandsAround_tile_congr _ _ _ _ _ _ (by split <;> rfl)
  · rw [adjLandsAround_numFilledTiles]
    split <;> rfl

theorem remove_terrain_land_parts (cfg : Cfg) (lin : Int) (g : Grid)
    (hty : (g.tile (get_row_idx cfg lin) (get_col_idx cfg lin)).type = .LHO_LANDSCAPE) :
    (remove_terrain cfg lin g).tile =
      (adjLandsAround cfg (get_row_idx cfg lin) (get_col_idx cfg lin) (-1)
        (setType g (get_row_idx cfg lin) (get_col_idx cfg lin) .LHO_EMPTY)).tile ∧
    (remove_terrain cfg lin g).numFilledTiles = g.numFilledTiles - 1 := by
  unfold remove_terrain
  dsimp only
  rw [hty]
  rw [if_pos (by decide : (Terrain.LHO_LANDSCAPE).toInt > -1)]
  rw [if_neg (by decide : ¬Terrain.LHO_LANDSCAPE = Terrain.LHO_RIVER)]
  rw [if_pos (rfl : Terrain.LHO_LANDSCAPE = Terrain.LHO_LANDSCAPE)]
  constructor
  · refine adjLandsAround_tile_congr _ _ _ _ _ _ ?_
    split
    · split <;> rfl
    · rfl
  · rw [adjLandsAround_numFilledTiles]
    split
    · split <;> rfl
    · rfl

/-- C6: an accepted `add_land(i)` followed by `remove_terrain(i)`
restores every tile exactly (kind and both adjacency counters) and
restores `numFilledTiles`. -/
theorem C6_land_roundtrip_restores_grid (cfg : Cfg) (g : Grid) (lin : Int)
    (h : (add_land cfg lin g).1 = true) :
    (remove_terrain cfg lin (add_land cfg lin g).2).tile = g.tile ∧
    (remove_terrain cfg lin (add_land cfg lin g).2).numFilledTiles = g.numFilledTiles := by
  have hvl : chk_loc cfg lin g = true := by rw [← add_land_fst]; exact h
  have hemp := chk_loc_true_empty cfg lin g hvl
  obtain ⟨ht, hf⟩ := add_land_accepted_parts cfg lin g hvl
  have hty2 : ((add_land cfg lin g).2.tile (get_row_idx cfg lin) (get_col_idx cfg lin)).type =
      .LHO_LANDSCAPE := by
    rw [ht, adjLandsAround_tile_type, setType_tile_pt, if_pos ⟨rfl, rfl⟩]
  obtain ⟨ht2, hf2⟩ := remove_terrain_land_parts cfg lin _ hty2
  constructor
  · rw [ht2,
      adjLandsAround_tile_congr _ _ _ _ _ _ (setType_tile_congr _ _ _ _ _ ht)]
    exact adjLands_roundtrip_tile cfg _ _ g hemp
  · rw [hf2, hf]
    omega

/-- Witness for C6 at a concrete input: a fresh 2×2 grid and an accepted
landscape placement at index 0, then its removal. -/
theorem C6_witness :
    (add_land ⟨2, 2⟩ 0 (allocate_grid ⟨2, 2⟩)).1 = true ∧
    ((remove_terrain ⟨2, 2⟩ 0 (add_land ⟨2, 2⟩ 0 (allocate_grid ⟨2, 2⟩)).2).tile =
        (allocate_grid ⟨2, 2⟩).tile ∧
      (remove_terrain ⟨2, 2⟩ 0 (add_land ⟨2, 2⟩ 0 (allocate_grid ⟨2, 2⟩)).2).numFilledTiles =
        (allocate_grid ⟨2, 2⟩).numFilledTiles) :=
  ⟨by decide, C6_land_roundtrip_restores_grid ⟨2, 2⟩ (allocate_grid ⟨2, 2⟩) 0 (by decide)⟩
/-! ## Fill bookkeeping (C9) -/


theorem countNonEmpty_type_congr (cfg : Cfg) (g1 g2 : Grid)
    (h : ∀ r c : Int, (g1.tile r c).type = (g2.tile r c).type) :
    countNonEmpty cfg g1 = countNonEmpty cfg g2 :=
  Finset.sum_congr rfl (fun p _ => by rw [h])

theorem countNonEmpty_le (cfg : Cfg) (g : Grid) (hrows : 0 ≤ cfg.numRows)
    (hcols : 0 ≤ cfg.numCols) :
    countNonEmpty cfg g ≤ cfg.numRows * cfg.numCols := by
  unfold countNonEmpty
  calc ∑ p ∈ Finset.range cfg.numRows.toNat ×ˢ Finset.range cfg.numCols.toNat,
        (if (g.tile p.1 p.2).type = .LHO_EMPTY then (0 : Int) else 1)
      ≤ ∑ _p ∈ Finset.range cfg.numRows.toNat ×ˢ Finset.range cfg.numCols.toNat, (1 : Int) :=
        Finset.sum_le_sum (fun p _ => by split <;> omega)
    _ = ((cfg.numRows.toNat * cfg.numCols.toNat : Nat) : Int) := by
        rw [Finset.sum_const, Finset.card_product, Finset.card_range, Finset.card_range]
        simp
    _ = cfg.numRows * cfg.numCols := by
        push_cast [Int.toNat_of_nonneg hrows, Int.toNat_of_nonneg hcols]
        rfl

theorem countNonEmpty_setType (cfg : Cfg) (g : Grid) (r0 c0 : Int) (t : Terrain)
    (h0r : 0 ≤ r0) (hrr : r0 < cfg.numRows) (h0c : 0 ≤ c0) (hcc : c0 < cfg.numCols) :
    countNonEmpty cfg (setType g r0 c0 t) =
      countNonEmpty cfg g - (if (g.tile r0 c0).type = .LHO_EMPTY then 0 else 1) +
        (if t = .LHO_EMPTY then 0 else 1) := by
  have e1 : ((r0.toNat : Nat) : Int) = r0 := Int.toNat_of_nonneg h0r
  have e2 : ((c0.toNat : Nat) : Int) = c0 := Int.toNat_of_nonneg h0c
  have hp0 : ((r0.toNat, c0.toNat) : Nat × Nat) ∈
      Finset.range cfg.numRows.toNat ×ˢ Finset.range cfg.numCols.toNat := by
    rw [Finset.mem_product, Finset.mem_range, Finset.mem_range]
    omega
  unfold countNonEmpty
  rw [← Finset.sum_erase_add _ _ hp0,
    ← Finset.sum_erase_add _
      (fun p : Nat × Nat => if (g.tile p.1 p.2).type = .LHO_EMPTY then (0 : Int) else 1) hp0]
  have hco : ∀ p ∈ (Finset.range cfg.numRows.toNat ×ˢ
        Finset.range cfg.numCols.toNat).erase (r0.toNat, c0.toNat),
      (if ((setType g r0 c0 t).tile p.1 p.2).type = .LHO_EMPTY then (0 : Int) else 1) =
      (if (g.tile p.1 p.2).type = .LHO_EMPTY then (0 : Int) else 1) := by
    intro p hp
    have hne := Finset.ne_of_mem_erase hp
    have hne' : ¬(((p.1 : Nat) : Int) = r0 ∧ ((p.2 : Nat) : Int) = c0) := by
      intro hpe
      apply hne
      have hh1 : p.1 = r0.toNat := by omega
      have hh2 : p.2 = c0.toNat := by omega
      exact Prod.ext hh1 hh2
    rw [setType_tile_pt, if_neg hne']
  rw [Finset.sum_congr rfl hco]
  have hf' : (if ((setType g r0 c0 t).tile ((r0.toNat : Nat) : Int)
      ((c0.toNat : Nat) : Int)).type = .LHO_EMPTY then (0 : Int) else 1) =
      (if t = .LHO_EMPTY then (0 : Int) else 1) := by
    rw [setType_tile_pt,
      if_pos (show ((r0.toNat : Nat) : Int) = r0 ∧ ((c0.toNat : Nat) : Int) = c0 from ⟨e1, e2⟩)]
  have hf : (if (g.tile ((r0.toNat : Nat) : Int) ((c0.toNat : Nat) : Int)).type = .LHO_EMPTY
      then (0 : Int) else 1) =
      (if (g.tile r0 c0).type = .LHO_EMPTY then (0 : Int) else 1) := by
    rw [e1, e2]
  rw [hf', hf]
  ring


theorem inrange_row_col (cfg : Cfg) (lin : Int) (hcols : 0 < cfg.numCols)
    (h : ¬(lin < 0 ∨ lin > cfg.numRows * cfg.numCols - 1)) :
    0 ≤ get_row_idx cfg lin ∧ get_row_idx cfg lin < cfg.numRows ∧
    0 ≤ get_col_idx cfg lin ∧ get_col_idx cfg lin < cfg.numCols := by
  push_neg at h
  obtain ⟨h0, h1⟩ := h
  rw [get_row_idx, get_col_idx, Int.tdiv_eq_ediv h0 hcols.le, Int.tmod_eq_emod h0 hcols.le]
  refine ⟨Int.ediv_nonneg h0 hcols.le, ?_,
    Int.emod_nonneg lin (ne_of_gt hcols), Int.emod_lt_of_pos lin hcols⟩
  rw [Int.ediv_lt_iff_lt_mul hcols]
  linarith [mul_comm cfg.numRows cfg.numCols]

theorem countNonEmpty_le_sub_one (cfg : Cfg) (g : Grid) (r0 c0 : Int)
    (h0r : 0 ≤ r0) (hrr : r0 < cfg.numRows) (h0c : 0 ≤ c0) (hcc : c0 < cfg.numCols)
    (hemp : (g.tile r0 c0).type = .LHO_EMPTY) :
    countNonEmpty cfg g ≤ cfg.numRows * cfg.numCols - 1 := by
  have e1 : ((r0.toNat : Nat) : Int) = r0 := Int.toNat_of_nonneg h0r
  have e2 : ((c0.toNat : Nat) : Int) = c0 := Int.toNat_of_nonneg h0c
  have hp0 : ((r0.toNat, c0.toNat) : Nat × Nat) ∈
      Finset.range cfg.numRows.toNat ×ˢ Finset.range cfg.numCols.toNat := by
    rw [Finset.mem_product, Finset.mem_range, Finset.mem_range]
    omega
  unfold countNonEmpty
  rw [← Finset.sum_erase_add _ _ hp0]
  have hz : (if (g.tile ((r0.toNat : Nat) : Int) ((c0.toNat : Nat) : Int)).type = .LHO_EMPTY
      then (0 : Int) else 1) = 0 := by
    rw [e1, e2, if_pos hemp]
  rw [hz, add_zero]
  calc ∑ p ∈ (Finset.range cfg.numRows.toNat ×ˢ
          Finset.range cfg.numCols.toNat).erase (r0.toNat, c0.toNat),
        (if (g.tile p.1 p.2).type = .LHO_EMPTY then (0 : Int) else 1)
      ≤ ∑ _p ∈ (Finset.range cfg.numRows.toNat ×ˢ
          Finset.range cfg.numCols.toNat).erase (r0.toNat, c0.toNat), (1 : Int) :=
        Finset.sum_le_sum (fun p _ => by split <;> omega)
    _ = (((Finset.range cfg.numRows.toNat ×ˢ
          Finset.range cfg.numCols.toNat).erase (r0.toNat, c0.toNat)).card : Int) := by
        rw [Finset.sum_const]
        simp
    _ = ((cfg.numRows.toNat * cfg.numCols.toNat - 1 : Nat) : Int) := by
        rw [Finset.card_erase_of_mem hp0, Finset.card_product, Finset.card_range,
          Finset.card_range]
    _ ≤ cfg.numRows * cfg.numCols - 1 := by
        have hn : 1 ≤ cfg.numRows.toNat * cfg.numCols.toNat := by
          rcases Finset.mem_product.mp hp0 with ⟨ha, hb⟩
          rw [Finset.mem_range] at ha hb
          exact Nat.mul_pos (by omega) (by omega)
        have : ((cfg.numRows.toNat * cfg.numCols.toNat : Nat) : Int) =
            cfg.numRows * cfg.numCols := by
          push_cast [Int.toNat_of_nonneg (by omega : (0:Int) ≤ cfg.numRows),
            Int.toNat_of_nonneg (by omega : (0:Int) ≤ cfg.numCols)]
          rfl
        omega



theorem chk_loc_tile_congr (cfg : Cfg) (lin : Int) (g1 g2 : Grid)
    (h : g1.tile = g2.tile) : chk_loc cfg lin g1 = chk_loc cfg lin g2 := by
  unfold chk_loc
  rw [h]

theorem add_land_not_valid (cfg : Cfg) (lin : Int) (g : Grid)
    (hvl : chk_loc cfg lin g = false) : add_land cfg lin g = (false, g) := by
  unfold add_land
  rw [hvl]
  simp

theorem setType_empty_type_congr (g : Grid) (r0 c0 : Int)
    (hemp : (g.tile r0 c0).type = .LHO_EMPTY) (r c : Int) :
    ((setType g r0 c0 .LHO_EMPTY).tile r c).type = (g.tile r c).type := by
  rw [setType_tile_pt]
  split
  · rename_i hp
    obtain ⟨rfl, rfl⟩ := hp
    rw [hemp]
  · rfl

theorem add_land_accepted_full (cfg : Cfg) (lin : Int) (g : Grid)
    (h : chk_loc cfg lin g = true) :
    (add_land cfg lin g).2.full =
      if g.numFilledTiles + 1 = g.maxTiles then true else g.full := by
  unfold add_land
  dsimp only
  rw [if_pos h, adjLandsAround_full]
  split
  · rename_i hc
    rw [if_pos (show g.numFilledTiles + 1 = g.maxTiles from hc)]
  · rename_i hc
    rw [if_neg (show ¬g.numFilledTiles + 1 = g.maxTiles from hc)]
    rfl

theorem remove_terrain_full (cfg : Cfg) (lin : Int) (g : Grid) :
    (remove_terrain cfg lin g).full = g.full := by
  unfold remove_terrain
  dsimp only
  repeat' split
  all_goals try simp only [adjRiversAround_full, adjLandsAround_full]
  all_goals rfl

theorem remove_terrain_empty_parts (cfg : Cfg) (lin : Int) (g : Grid)
    (hpt : (g.tile (get_row_idx cfg lin) (get_col_idx cfg lin)).type = .LHO_EMPTY) :
    (remove_terrain cfg lin g).tile =
      (setType g (get_row_idx cfg lin) (get_col_idx cfg lin) .LHO_EMPTY).tile ∧
    (remove_terrain cfg lin g).numFilledTiles = g.numFilledTiles := by
  unfold remove_terrain
  dsimp only
  rw [hpt]
  simp only [Terrain.toInt]
  rw [if_neg (by omega : ¬(-1 : Int) > -1)]
  simp only [reduceCtorEq, if_false]
  constructor
  · split
    · split <;> rfl
    · rfl
  · split
    · split <;> rfl
    · rfl

theorem remove_terrain_river_parts (cfg : Cfg) (lin : Int) (g : Grid)
    (hty : (g.tile (get_row_idx cfg lin) (get_col_idx cfg lin)).type = .LHO_RIVER) :
    (∀ r c : Int, ((remove_terrain cfg lin g).tile r c).type =
      ((setType g (get_row_idx cfg lin) (get_col_idx cfg lin) .LHO_EMPTY).tile r c).type) ∧
    (remove_terrain cfg lin g).numFilledTiles = g.numFilledTiles - 1 := by
  unfold remove_terrain
  dsimp only
  rw [hty]
  rw [if_pos (by decide : (Terrain.LHO_RIVER).toInt > -1)]
  rw [if_pos (rfl : Terrain.LHO_RIVER = Terrain.LHO_RIVER)]
  constructor
  · intro r c
    rw [adjRiversAround_tile_type]
    split
    · split <;> rfl
    · rfl
  · rw [adjRiversAround_numFilledTiles]
    split
    · split <;> rfl
    · rfl



theorem add_land_maxTiles (cfg : Cfg) (i : Int) (g : Grid) :
    (add_land cfg i g).2.maxTiles = g.maxTiles := by
  unfold add_land
  dsimp only
  split
  · rw [adjLandsAround_maxTiles]
    split <;> rfl
  · rfl

theorem remove_terrain_maxTiles (cfg : Cfg) (i : Int) (g : Grid) :
    (remove_terrain cfg i g).maxTiles = g.maxTiles := by
  unfold remove_terrain
  dsimp only
  repeat' split
  all_goals try simp only [adjRiversAround_maxTiles, adjLandsAround_maxTiles]
  all_goals rfl

theorem add_river_maxTiles (cfg : Cfg) (i : Int) (g : Grid) :
    (add_river cfg i g).2.maxTiles = g.maxTiles := by
  cases hnr : g.river.newRiver
  · unfold add_river
    rw [hnr]
    simp only [Bool.false_eq_true, if_false]
    repeat' split
    all_goals try simp only [adjRiversAround_maxTiles]
    all_goals rfl
  · unfold add_river
    rw [hnr]
    simp only [if_true]
    by_cases hb : get_row_idx cfg i = 0 ∨ get_col_idx cfg i = 0 ∨
        get_row_idx cfg i = cfg.numRows - 1 ∨ get_col_idx cfg i = cfg.numCols - 1
    · rw [if_pos hb]
      simp only
      repeat' split
      all_goals try simp only [adjRiversAround_maxTiles]
      all_goals rfl
    · rw [if_neg hb]

theorem add_river_snd_cases (cfg : Cfg) (i : Int) (g : Grid) :
    (add_river cfg i g).1 = true ∨ (add_river cfg i g).2 = g ∨
      (add_river cfg i g).2 = { g with river := { g.river with newRiver := false } } := by
  cases hnr : g.river.newRiver
  · unfold add_river
    rw [hnr]
    simp only [Bool.false_eq_true, if_false]
    by_cases hadj : ¬((|get_row_idx cfg i - get_row_idx cfg g.river.headLoc| = 1 ∧
        |get_col_idx cfg i - get_col_idx cfg g.river.headLoc| = 0) ∨
        (|get_row_idx cfg i - get_row_idx cfg g.river.headLoc| = 0 ∧
        |get_col_idx cfg i - get_col_idx cfg g.river.headLoc| = 1)) ∧ g.river.headLoc > -1
    · rw [if_pos hadj]
      exact Or.inr (Or.inl rfl)
    · rw [if_neg hadj]
      by_cases hvl : chk_loc cfg i g = true
      · rw [if_pos hvl]
        exact Or.inl rfl
      · rw [if_neg hvl]
        exact Or.inr (Or.inl rfl)
  · unfold add_river
    rw [hnr]
    simp only [if_true]
    by_cases hb : get_row_idx cfg i = 0 ∨ get_col_idx cfg i = 0 ∨
        get_row_idx cfg i = cfg.numRows - 1 ∨ get_col_idx cfg i = cfg.numCols - 1
    · rw [if_pos hb]
      simp only
      by_cases hadj : ¬((|get_row_idx cfg i - get_row_idx cfg
          ({ g with river := { g.river with newRiver := false } } : Grid).river.headLoc| = 1 ∧
          |get_col_idx cfg i - get_col_idx cfg
          ({ g with river := { g.river with newRiver := false } } : Grid).river.headLoc| = 0) ∨
          (|get_row_idx cfg i - get_row_idx cfg
          ({ g with river := { g.river with newRiver := false } } : Grid).river.headLoc| = 0 ∧
          |get_col_idx cfg i - get_col_idx cfg
          ({ g with river := { g.river with newRiver := false } } : Grid).river.headLoc| = 1)) ∧
          ({ g with river := { g.river with newRiver := false } } : Grid).river.headLoc > -1
      · rw [if_pos hadj]
        exact Or.inr (Or.inr rfl)
      · rw [if_neg hadj]
        by_cases hvl : chk_loc cfg i
            { g with river := { g.river with newRiver := false } } = true
        · rw [if_pos hvl]
          exact Or.inl rfl
        · rw [if_neg hvl]
          exact Or.inr (Or.inr rfl)
    · rw [if_neg hb]
      exact Or.inr (Or.inl rfl)

theorem add_river_accepted_parts (cfg : Cfg) (i : Int) (g : Grid)
    (h : (add_river cfg i g).1 = true) :
    chk_loc cfg i g = true ∧
    (∀ r c : Int, ((add_river cfg i g).2.tile r c).type =
      ((setType g (get_row_idx cfg i) (get_col_idx cfg i) .LHO_RIVER).tile r c).type) ∧
    (add_river cfg i g).2.numFilledTiles = g.numFilledTiles + 1 ∧
    (add_river cfg i g).2.full =
      (if g.numFilledTiles + 1 = g.maxTiles then true else g.full) := by
  cases hnr : g.river.newRiver
  · unfold add_river at h ⊢
    rw [hnr] at h ⊢
    simp only [Bool.false_eq_true, if_false] at h ⊢
    by_cases hadj : ¬((|get_row_idx cfg i - get_row_idx cfg g.river.headLoc| = 1 ∧
        |get_col_idx cfg i - get_col_idx cfg g.river.headLoc| = 0) ∨
        (|get_row_idx cfg i - get_row_idx cfg g.river.headLoc| = 0 ∧
        |get_col_idx cfg i - get_col_idx cfg g.river.headLoc| = 1)) ∧ g.river.headLoc > -1
    · rw [if_pos hadj] at h
      exact absurd h (by simp)
    · rw [if_neg hadj] at h ⊢
      by_cases hvl : chk_loc cfg i g = true
      · rw [if_pos hvl]
        refine ⟨hvl, fun r c => ?_, ?_, ?_⟩
        · rw [adjRiversAround_tile_type]
          split
          · rfl
          · rfl
        · rw [adjRiversAround_numFilledTiles]
          split <;> rfl
        · rw [adjRiversAround_full]
          split
          · rename_i hc
            rw [if_pos (show g.numFilledTiles + 1 = g.maxTiles from hc)]
          · rename_i hc
            rw [if_neg (show ¬g.numFilledTiles + 1 = g.maxTiles from hc)]
            rfl
      · rw [if_neg hvl] at h
        exact absurd h (by simp)
  · unfold add_river at h ⊢
    rw [hnr] at h ⊢
    simp only [if_true] at h ⊢
    by_cases hb : get_row_idx cfg i = 0 ∨ get_col_idx cfg i = 0 ∨
        get_row_idx cfg i = cfg.numRows - 1 ∨ get_col_idx cfg i = cfg.numCols - 1
    · rw [if_pos hb] at h ⊢
      simp only at h ⊢
      by_cases hadj : ¬((|get_row_idx cfg i - get_row_idx cfg
          ({ g with river := { g.river with newRiver := false } } : Grid).river.headLoc| = 1 ∧
          |get_col_idx cfg i - get_col_idx cfg
          ({ g with river := { g.river with newRiver := false } } : Grid).river.headLoc| = 0) ∨
          (|get_row_idx cfg i - get_row_idx cfg
          ({ g with river := { g.river with newRiver := false } } : Grid).river.headLoc| = 0 ∧
          |get_col_idx cfg i - get_col_idx cfg
          ({ g with river := { g.river with newRiver := false } } : Grid).river.headLoc| = 1)) ∧
          ({ g with river := { g.river with newRiver := false } } : Grid).river.headLoc > -1
      · rw [if_pos hadj] at h
        exact absurd h (by simp)
      · rw [if_neg hadj] at h ⊢
        by_cases hvl : chk_loc cfg i
            { g with river := { g.river with newRiver := false } } = true
        · rw [if_pos hvl]
          refine ⟨?_, fun r c => ?_, ?_, ?_⟩
          · rw [← chk_loc_tile_congr cfg i
              ({ g with river := { g.river with newRiver := false } }) g rfl]
            exact hvl
          · rw [adjRiversAround_tile_type]
            split
            · rfl
            · rfl
          · rw [adjRiversAround_numFilledTiles]
            split <;> rfl
          · rw [adjRiversAround_full]
            split
            · rename_i hc
              rw [if_pos (show g.numFilledTiles + 1 = g.maxTiles from hc)]
            · rename_i hc
              rw [if_neg (show ¬g.numFilledTiles + 1 = g.maxTiles from hc)]
              rfl
        · rw [if_neg hvl] at h
          exact absurd h (by simp)
    · rw [if_neg hb] at h
      exact absurd h (by simp)



/-- C9 (amended): `add_land` and `add_river` always preserve both fill
invariants (`full = (numFilledTiles = maxTiles)` and `numFilledTiles`
equals the number of non-empty tiles); `remove_terrain` preserves them on
every grid that is not flagged full, but on a full grid it leaves the
stale `full = true` flag behind (see the counterexample). -/
theorem C9_fill_invariants_preserved (cfg : Cfg) (g : Grid)
    (hrows : 0 ≤ cfg.numRows) (hcols : 0 < cfg.numCols)
    (hmax : g.maxTiles = cfg.numRows * cfg.numCols)
    (hblank : OuterBlank cfg g) (hinv : FillInv cfg g) :
    (∀ i : Int, FillInv cfg (add_land cfg i g).2) ∧
    (∀ i : Int, FillInv cfg (add_river cfg i g).2) ∧
    (∀ i : Int, g.full = false → FillInv cfg (remove_terrain cfg i g)) := by
  obtain ⟨hiff, hcount⟩ := hinv
  have hcle : countNonEmpty cfg g ≤ g.maxTiles := by
    rw [hmax]
    exact countNonEmpty_le cfg g hrows hcols.le
  refine ⟨?_, ?_, ?_⟩
  · intro i
    by_cases hvl : chk_loc cfg i g = true
    · obtain ⟨ht, hf⟩ := add_land_accepted_parts cfg i g hvl
      have hfull := add_land_accepted_full cfg i g hvl
      have hemp := chk_loc_true_empty cfg i g hvl
      have hrcb := inrange_row_col cfg i hcols (chk_loc_true_inrange cfg i g hvl)
      have hcnt : countNonEmpty cfg (add_land cfg i g).2 = countNonEmpty cfg g + 1 := by
        rw [countNonEmpty_type_congr cfg _
            (setType g (get_row_idx cfg i) (get_col_idx cfg i) .LHO_LANDSCAPE)
            (fun r c => by rw [congrFun (congrFun ht r) c, adjLandsAround_tile_type]),
          countNonEmpty_setType cfg g _ _ _ hrcb.1 hrcb.2.1 hrcb.2.2.1 hrcb.2.2.2,
          if_pos hemp, if_neg (by decide : ¬Terrain.LHO_LANDSCAPE = Terrain.LHO_EMPTY)]
        ring
      have hle1 : countNonEmpty cfg g ≤ g.maxTiles - 1 := by
        rw [hmax]
        exact countNonEmpty_le_sub_one cfg g _ _ hrcb.1 hrcb.2.1 hrcb.2.2.1 hrcb.2.2.2 hemp
      constructor
      · rw [hfull, hf, add_land_maxTiles]
        by_cases hM : g.numFilledTiles + 1 = g.maxTiles
        · rw [if_pos hM]
          exact ⟨fun _ => hM, fun _ => rfl⟩
        · rw [if_neg hM]
          constructor
          · intro hfT
            exact absurd (hiff.mp hfT) (by omega)
          · intro hM2
            exact absurd hM2 hM
      · rw [hf, hcnt, hcount]
    · have hvl2 : chk_loc cfg i g = false := by
        simpa using hvl
      rw [add_land_not_valid cfg i g hvl2]
      exact ⟨hiff, hcount⟩
  · intro i
    rcases add_river_snd_cases cfg i g with hacc | hg | hg
    · obtain ⟨hchk, ht, hf, hfull⟩ := add_river_accepted_parts cfg i g hacc
      have hemp := chk_loc_true_empty cfg i g hchk
      have hrcb := inrange_row_col cfg i hcols (chk_loc_true_inrange cfg i g hchk)
      have hcnt : countNonEmpty cfg (add_river cfg i g).2 = countNonEmpty cfg g + 1 := by
        rw [countNonEmpty_type_congr cfg _ _ ht,
          countNonEmpty_setType cfg g _ _ _ hrcb.1 hrcb.2.1 hrcb.2.2.1 hrcb.2.2.2,
          if_pos hemp, if_neg (by decide : ¬Terrain.LHO_RIVER = Terrain.LHO_EMPTY)]
        ring
      have hle1 : countNonEmpty cfg g ≤ g.maxTiles - 1 := by
        rw [hmax]
        exact countNonEmpty_le_sub_one cfg g _ _ hrcb.1 hrcb.2.1 hrcb.2.2.1 hrcb.2.2.2 hemp
      constructor
      · rw [hfull, hf, add_river_maxTiles]
        by_cases hM : g.numFilledTiles + 1 = g.maxTiles
        · rw [if_pos hM]
          exact ⟨fun _ => hM, fun _ => rfl⟩
        · rw [if_neg hM]
          constructor
          · intro hfT
            exact absurd (hiff.mp hfT) (by omega)
          · intro hM2
            exact absurd hM2 hM
      · rw [hf, hcnt, hcount]
    · rw [hg]
      exact ⟨hiff, hcount⟩
    · rw [hg]
      exact ⟨hiff, hcount⟩
  · intro i hfull0
    have hfne : g.numFilledTiles ≠ g.maxTiles := by
      intro hEq
      rw [hiff.mpr hEq] at hfull0
      exact Bool.true_eq_false.mp hfull0
    have hfullr := remove_terrain_full cfg i g
    have hmaxr := remove_terrain_maxTiles cfg i g
    have hempty_case : ∀ hpt : (g.tile (get_row_idx cfg i) (get_col_idx cfg i)).type =
        .LHO_EMPTY, FillInv cfg (remove_terrain cfg i g) := by
      intro hpt
      obtain ⟨htile, hfil⟩ := remove_terrain_empty_parts cfg i g hpt
      have hcnt : countNonEmpty cfg (remove_terrain cfg i g) = countNonEmpty cfg g := by
        refine countNonEmpty_type_congr cfg _ _ (fun r c => ?_)
        rw [congrFun (congrFun htile r) c]
        exact setType_empty_type_congr g _ _ hpt r c
      constructor
      · rw [hfullr, hfull0, hfil, hmaxr]
        exact ⟨fun hT => absurd hT (by simp), fun hEq => absurd hEq hfne⟩
      · rw [hfil, hcnt]
        exact hcount
    by_cases hoob : i < 0 ∨ i > cfg.numRows * cfg.numCols - 1
    · exact hempty_case (hblank _ _ (oob_row_col cfg i hrows hcols hoob))
    · have hrcb := inrange_row_col cfg i hcols hoob
      rcases hty : (g.tile (get_row_idx cfg i) (get_col_idx cfg i)).type
      · exact hempty_case hty
      · obtain ⟨htype, hfil⟩ := remove_terrain_river_parts cfg i g hty
        have hcnt : countNonEmpty cfg (remove_terrain cfg i g) =
            countNonEmpty cfg g - 1 := by
          rw [countNonEmpty_type_congr cfg _ _ htype,
            countNonEmpty_setType cfg g _ _ _ hrcb.1 hrcb.2.1 hrcb.2.2.1 hrcb.2.2.2,
            if_neg (by rw [hty]; decide), if_pos rfl]
          ring
        constructor
        · rw [hfullr, hfull0, hfil, hmaxr]
          refine ⟨fun hT => absurd hT (by simp), fun hEq => ?_⟩
          exact absurd hEq (by omega)
        · rw [hfil, hcnt, hcount]
      · obtain ⟨htile, hfil⟩ := remove_terrain_land_parts cfg i g hty
        have hcnt : countNonEmpty cfg (remove_terrain cfg i g) =
            countNonEmpty cfg g - 1 := by
          have htype : ∀ r c : Int, ((remove_terrain cfg i g).tile r c).type =
              ((setType g (get_row_idx cfg i) (get_col_idx cfg i) .LHO_EMPTY).tile r c).type := by
            intro r c
            rw [congrFun (congrFun htile r) c, adjLandsAround_tile_type]
          rw [countNonEmpty_type_congr cfg _ _ htype,
            countNonEmpty_setType cfg g _ _ _ hrcb.1 hrcb.2.1 hrcb.2.2.1 hrcb.2.2.2,
            if_neg (by rw [hty]; decide), if_pos rfl]
          ring
        constructor
        · rw [hfullr, hfull0, hfil, hmaxr]
          refine ⟨fun hT => absurd hT (by simp), fun hEq => ?_⟩
          exact absurd hEq (by omega)
        · rw [hfil, hcnt, hcount]

/-- C9 counterexample: on a 1×1 grid, after the accepted `add_land 0` the
grid satisfies both fill invariants (`full = true`, `numFilledTiles = 1 =
capacity = countNonEmpty`); `remove_terrain 0` empties the tile and sets
`numFilledTiles = 0` but leaves `full = true`, so `isFull =
(filledCount = capacity)` no longer holds. -/
theorem C9_counterexample :
    (add_land ⟨1, 1⟩ 0 (allocate_grid ⟨1, 1⟩)).2.full = true ∧
    (add_land ⟨1, 1⟩ 0 (allocate_grid ⟨1, 1⟩)).2.numFilledTiles = 1 ∧
    (add_land ⟨1, 1⟩ 0 (allocate_grid ⟨1, 1⟩)).2.maxTiles = 1 ∧
    countNonEmpty ⟨1, 1⟩ (add_land ⟨1, 1⟩ 0 (allocate_grid ⟨1, 1⟩)).2 = 1 ∧
    (remove_terrain ⟨1, 1⟩ 0 (add_land ⟨1, 1⟩ 0 (allocate_grid ⟨1, 1⟩)).2).full = true ∧
    (remove_terrain ⟨1, 1⟩ 0 (add_land ⟨1, 1⟩ 0 (allocate_grid ⟨1, 1⟩)).2).numFilledTiles = 0 ∧
    (remove_terrain ⟨1, 1⟩ 0 (add_land ⟨1, 1⟩ 0 (allocate_grid ⟨1, 1⟩)).2).maxTiles = 1 :=
  ⟨by decide, by decide, by decide, by decide, by decide, by decide, by decide⟩

/-- Witness for C9 (amended) on a fresh 2×2 grid. -/
theorem C9_witness :
    ((0 : Int) ≤ (⟨2, 2⟩ : Cfg).numRows ∧ (0 : Int) < (⟨2, 2⟩ : Cfg).numCols ∧
      (allocate_grid ⟨2, 2⟩).maxTiles = (⟨2, 2⟩ : Cfg).numRows * (⟨2, 2⟩ : Cfg).numCols ∧
      OuterBlank ⟨2, 2⟩ (allocate_grid ⟨2, 2⟩) ∧ FillInv ⟨2, 2⟩ (allocate_grid ⟨2, 2⟩)) ∧
    ((∀ i : Int, FillInv ⟨2, 2⟩ (add_land ⟨2, 2⟩ i (allocate_grid ⟨2, 2⟩)).2) ∧
      (∀ i : Int, FillInv ⟨2, 2⟩ (add_river ⟨2, 2⟩ i (allocate_grid ⟨2, 2⟩)).2) ∧
      (∀ i : Int, (allocate_grid ⟨2, 2⟩).full = false →
        FillInv ⟨2, 2⟩ (remove_terrain ⟨2, 2⟩ i (allocate_grid ⟨2, 2⟩)))) :=
  ⟨⟨by decide, by decide, by decide, fun r c _ => rfl, by decide⟩,
    C9_fill_invariants_preserved ⟨2, 2⟩ (allocate_grid ⟨2, 2⟩) (by decide) (by decide)
      (by decide) (fun r c _ => rfl) (by decide)⟩


theorem AdjacentIdx_symm (cfg : Cfg) (a b : Int) (h : AdjacentIdx cfg a b) :
    AdjacentIdx cfg b a := by
  rw [AdjacentIdx] at h ⊢
  rcases h with ⟨h1, h2⟩ | ⟨h1, h2⟩
  · exact Or.inl ⟨by rw [abs_sub_comm] at h1; exact h1, by rw [abs_sub_comm] at h2; exact h2⟩
  · exact Or.inr ⟨by rw [abs_sub_comm] at h1; exact h1, by rw [abs_sub_comm] at h2; exact h2⟩

theorem rowcol_inj (cfg : Cfg) (hcols : 0 < cfg.numCols) (a b : Int)
    (ha : InRange cfg a) (hb : InRange cfg b)
    (hr : get_row_idx cfg a = get_row_idx cfg b)
    (hc : get_col_idx cfg a = get_col_idx cfg b) : a = b := by
  obtain ⟨ha0, _⟩ := ha
  obtain ⟨hb0, _⟩ := hb
  simp only [get_row_idx, get_col_idx] at hr hc
  rw [Int.tdiv_eq_ediv ha0 hcols.le, Int.tdiv_eq_ediv hb0 hcols.le] at hr
  rw [Int.tmod_eq_emod ha0 hcols.le, Int.tmod_eq_emod hb0 hcols.le] at hc
  have hida := Int.ediv_add_emod a cfg.numCols
  have hidb := Int.ediv_add_emod b cfg.numCols
  rw [hr, hc] at hida
  omega

theorem add_river_accepted_border (cfg : Cfg) (i : Int) (g : Grid)
    (hnr : g.river.newRiver = true) (h : (add_river cfg i g).1 = true) :
    OnBorder cfg i := by
  unfold add_river at h
  rw [hnr] at h
  simp only [if_true] at h
  by_cases hb : get_row_idx cfg i = 0 ∨ get_col_idx cfg i = 0 ∨
      get_row_idx cfg i = cfg.numRows - 1 ∨ get_col_idx cfg i = cfg.numCols - 1
  · exact hb
  · rw [if_neg hb] at h
    exact absurd h (by simp)

theorem add_river_accepted_head_adj (cfg : Cfg) (i : Int) (g : Grid)
    (h : (add_river cfg i g).1 = true) (hh : g.river.headLoc > -1) :
    AdjacentIdx cfg i g.river.headLoc := by
  cases hnr : g.river.newRiver
  · unfold add_river at h
    rw [hnr] at h
    simp only [Bool.false_eq_true, if_false] at h
    by_cases hadj : ¬((|get_row_idx cfg i - get_row_idx cfg g.river.headLoc| = 1 ∧
        |get_col_idx cfg i - get_col_idx cfg g.river.headLoc| = 0) ∨
        (|get_row_idx cfg i - get_row_idx cfg g.river.headLoc| = 0 ∧
        |get_col_idx cfg i - get_col_idx cfg g.river.headLoc| = 1)) ∧ g.river.headLoc > -1
    · rw [if_pos hadj] at h
      exact absurd h (by simp)
    · rw [AdjacentIdx]
      tauto
  · unfold add_river at h
    rw [hnr] at h
    simp only [if_true] at h
    by_cases hb : get_row_idx cfg i = 0 ∨ get_col_idx cfg i = 0 ∨
        get_row_idx cfg i = cfg.numRows - 1 ∨ get_col_idx cfg i = cfg.numCols - 1
    · rw [if_pos hb] at h
      simp only at h
      by_cases hadj : ¬((|get_row_idx cfg i - get_row_idx cfg
          ({ g with river := { g.river with newRiver := false } } : Grid).river.headLoc| = 1 ∧
          |get_col_idx cfg i - get_col_idx cfg
          ({ g with river := { g.river with newRiver := false } } : Grid).river.headLoc| = 0) ∨
          (|get_row_idx cfg i - get_row_idx cfg
          ({ g with river := { g.river with newRiver := false } } : Grid).river.headLoc| = 0 ∧
          |get_col_idx cfg i - get_col_idx cfg
          ({ g with river := { g.river with newRiver := false } } : Grid).river.headLoc| = 1)) ∧
          ({ g with river := { g.river with newRiver := false } } : Grid).river.headLoc > -1
      · rw [if_pos hadj] at h
        exact absurd h (by simp)
      · rw [AdjacentIdx]
        revert hadj
        intro hadj
        tauto
    · rw [if_neg hb] at h
      exact absurd h (by simp)

theorem RiverReach_nil (cfg : Cfg) : RiverReach cfg (allocate_grid cfg) [] := by
  refine ⟨⟨List.nodup_nil, ?_, List.chain'_nil, ?_, ?_⟩, fun _ => rfl, ?_, rfl⟩
  · intro a ha
    exact absurd ha (List.not_mem_nil a)
  · intro a ha
    exact absurd ha (by simp)
  · intro a _
    constructor
    · intro hty
      exact absurd hty (by simp [allocate_grid])
    · intro hm
      exact absurd hm (List.not_mem_nil a)
  · intro a ha
    exact absurd ha (by simp)

theorem RiverReach_step (cfg : Cfg) (g : Grid) (l : List Int) (i : Int)
    (hcols : 0 < cfg.numCols)
    (hre : RiverReach cfg g l) (h : (add_river cfg i g).1 = true) :
    RiverReach cfg (add_river cfg i g).2 (l ++ [i]) := by
  obtain ⟨⟨hnd, hinr, hch, hbord, hiff⟩, hemp, hlast, hnr⟩ := hre
  obtain ⟨hchk, htype, _, _⟩ := add_river_accepted_parts cfg i g h
  have hriver := add_river_accepted_river cfg i g h
  have hiinr : InRange cfg i := by
    have hb := chk_loc_true_inrange cfg i g hchk
    push_neg at hb
    exact ⟨by omega, by omega⟩
  have hempty_i : (g.tile (get_row_idx cfg i) (get_col_idx cfg i)).type = .LHO_EMPTY :=
    chk_loc_true_empty cfg i g hchk
  have hnotmem : i ∉ l := by
    intro hm
    have hr := (hiff i hiinr).mpr hm
    rw [hempty_i] at hr
    exact absurd hr (by decide)
  refine ⟨⟨?_, ?_, ?_, ?_, ?_⟩, ?_, ?_, ?_⟩
  · rw [List.nodup_append]
    refine ⟨hnd, List.nodup_singleton i, ?_⟩
    intro a ha hb
    rw [List.mem_singleton] at hb
    exact hnotmem (hb ▸ ha)
  · intro a ha
    rcases List.mem_append.mp ha with ha | ha
    · exact hinr a ha
    · rw [List.mem_singleton.mp ha]
      exact hiinr
  · apply List.Chain'.append hch (List.chain'_singleton i)
    intro x hx y hy
    rw [List.head?_cons, Option.mem_some_iff] at hy
    have hhx : g.river.headLoc = x := hlast x hx
    have hxl : x ∈ l := List.mem_of_mem_getLast? hx
    have hx0 : 0 ≤ x := (hinr x hxl).1
    have hadj : AdjacentIdx cfg i g.river.headLoc :=
      add_river_accepted_head_adj cfg i g h (by omega)
    rw [hhx] at hadj
    rw [← hy]
    exact AdjacentIdx_symm cfg i x hadj
  · intro a ha
    cases hl : l with
    | nil =>
      rw [hl] at ha
      simp only [List.nil_append, List.head?_cons, Option.mem_some_iff] at ha
      have hnewr : g.river.newRiver = true := by
        rw [hnr, hl]
        rfl
      rw [← ha]
      exact add_river_accepted_border cfg i g hnewr h
    | cons c cs =>
      rw [hl] at ha
      simp only [List.cons_append, List.head?_cons, Option.mem_some_iff] at ha
      apply hbord
      rw [hl, List.head?_cons, Option.mem_some_iff]
      exact ha
  · intro a hair
    rw [htype (get_row_idx cfg a) (get_col_idx cfg a), setType_tile_pt]
    by_cases hpos : get_row_idx cfg a = get_row_idx cfg i ∧ get_col_idx cfg a = get_col_idx cfg i
    · have hai : a = i := rowcol_inj cfg hcols a i hair hiinr hpos.1 hpos.2
      rw [if_pos hpos]
      subst hai
      simp
    · rw [if_neg hpos]
      have hne : a ≠ i := by
        intro he
        exact hpos (by rw [he]; exact ⟨rfl, rfl⟩)
      rw [hiff a hair]
      simp [hne]
  · intro hl0
    exact absurd hl0 (by simp)
  · intro a ha
    rw [hriver]
    have hlst : (l ++ [i]).getLast? = some i := by simp
    rw [hlst, Option.some_inj] at ha
    rw [ha]
  · rw [hriver]
    simp

theorem riversReach_applyOps (cfg : Cfg) (hcols : 0 < cfg.numCols) :
    ∀ (ops : List Int) (g : Grid) (l : List Int), RiverReach cfg g l →
    allAccepted cfg (ops.map Op.river) g = true →
    ∃ lr, RiverReach cfg (applyOps cfg (ops.map Op.river) g) lr := by
  intro ops
  induction ops with
  | nil =>
    intro g l hre _
    exact ⟨l, hre⟩
  | cons a as ih =>
    intro g l hre hacc
    simp only [List.map_cons, allAccepted, Op.apply, Bool.and_eq_true] at hacc
    have happ : applyOps cfg ((a :: as).map Op.river) g =
        applyOps cfg (as.map Op.river) (add_river cfg a g).2 := rfl
    rw [happ]
    exact ih (add_river cfg a g).2 (l ++ [a])
      (RiverReach_step cfg g l a hcols hre hacc.1) hacc.2

/-- C3, counterexample: on a 1x3 grid the calls add_river 0, add_river 1,
add_river 2, remove_terrain 1 are all accepted, yet afterwards the river
tiles are the disconnected set {0, 2}, which is no simple path. -/
theorem C3_counterexample :
    allAccepted ⟨1, 3⟩ [.river 0, .river 1, .river 2, .remove 1]
      (allocate_grid ⟨1, 3⟩) = true ∧
    ¬∃ l, IsRiverTrail ⟨1, 3⟩
      (applyOps ⟨1, 3⟩ [.river 0, .river 1, .river 2, .remove 1]
        (allocate_grid ⟨1, 3⟩)) l := by
  refine ⟨by decide, ?_⟩
  rintro ⟨l, hnd, hinr, hch, _, hiff⟩
  have h0 : (0 : Int) ∈ l := (hiff 0 (by decide)).mp (by decide)
  have h2 : (2 : Int) ∈ l := (hiff 2 (by decide)).mp (by decide)
  have h1 : (1 : Int) ∉ l := by
    intro hm
    have hr := (hiff 1 (by decide)).mpr hm
    exact absurd hr (by decide)
  have hmem : ∀ x ∈ l, x = 0 ∨ x = 2 := by
    intro x hx
    obtain ⟨hx0, hx3⟩ := hinr x hx
    have hx1 : x ≠ 1 := fun he => h1 (he ▸ hx)
    simp only [Cfg.numRows, Cfg.numCols] at hx3
    omega
  cases l with
  | nil =>
    exact absurd h0 (List.not_mem_nil 0)
  | cons a tl =>
    cases tl with
    | nil =>
      rw [List.mem_singleton] at h0 h2
      omega
    | cons b tl2 =>
      rcases List.nodup_cons.mp hnd with ⟨ha1, hnd2⟩
      cases tl2 with
      | nil =>
        have hab : a ≠ b := fun he => ha1 (he ▸ List.mem_singleton_self b)
        have hadj : AdjacentIdx ⟨1, 3⟩ a b := (List.chain'_cons.mp hch).1
        have ha : a = 0 ∨ a = 2 := hmem a (List.mem_cons_self a _)
        have hb : b = 0 ∨ b = 2 := hmem b (List.mem_cons_of_mem a (List.mem_singleton_self b))
        rcases ha with rfl | rfl <;> rcases hb with rfl | rfl
        · omega
        · exact absurd hadj (by decide)
        · exact absurd hadj (by decide)
        · omega
      | cons c tl3 =>
        rcases List.nodup_cons.mp hnd2 with ⟨hb1, _⟩
        have hab : a ≠ b := by
          intro he
          exact ha1 (by rw [he]; simp)
        have hac : a ≠ c := by
          intro he
          exact ha1 (by rw [he]; simp)
        have hbc : b ≠ c := by
          intro he
          exact hb1 (by rw [he]; simp)
        have ha : a = 0 ∨ a = 2 := hmem a (by simp)
        have hb : b = 0 ∨ b = 2 := hmem b (by simp)
        have hc : c = 0 ∨ c = 2 := hmem c (by simp)
        omega

/-- C3 (amended): starting from the empty grid, after any sequence of
accepted add_river calls (no removals) the river tiles form one simple
orthogonally-connected path starting on the border; remove_terrain can
break this, as the counterexample shows. -/
theorem C3_rivers_form_simple_border_path (cfg : Cfg) (hcols : 0 < cfg.numCols)
    (ops : List Int)
    (hacc : allAccepted cfg (ops.map Op.river) (allocate_grid cfg) = true) :
    ∃ l, IsRiverTrail cfg (applyOps cfg (ops.map Op.river) (allocate_grid cfg)) l := by
  obtain ⟨lr, hre⟩ :=
    riversReach_applyOps cfg hcols ops (allocate_grid cfg) [] (RiverReach_nil cfg) hacc
  exact ⟨lr, hre.1⟩

theorem C3_witness :
    0 < (⟨1, 3⟩ : Cfg).numCols ∧
    allAccepted ⟨1, 3⟩ ([0, 1].map Op.river) (allocate_grid ⟨1, 3⟩) = true ∧
    ∃ l, IsRiverTrail ⟨1, 3⟩
      (applyOps ⟨1, 3⟩ ([0, 1].map Op.river) (allocate_grid ⟨1, 3⟩)) l :=
  ⟨by decide, by decide,
    C3_rivers_form_simple_border_path ⟨1, 3⟩ (by decide) [0, 1] (by decide)⟩


theorem chain_cons_le_getLast : ∀ (l : List Int) (b a : Int),
    List.Chain' (· ≤ ·) (b :: l) → (b :: l).getLast? = some a → b ≤ a := by
  intro l
  induction l with
  | nil =>
    intro b a _ hl
    rw [List.getLast?_singleton, Option.some_inj] at hl
    omega
  | cons c cs ih =>
    intro b a hch hl
    obtain ⟨hbc, hch'⟩ := List.chain'_cons'.mp hch
    have hbc' : b ≤ c := hbc c rfl
    rw [List.getLast?_cons_cons] at hl
    exact le_trans hbc' (ih c a hch' hl)

theorem getLast?_cons_some : ∀ (l : List Int) (x : Int), ∃ y, (x :: l).getLast? = some y := by
  intro l
  induction l with
  | nil =>
    intro x
    exact ⟨x, rfl⟩
  | cons c cs ih =>
    intro x
    rw [List.getLast?_cons_cons]
    exact ih c

theorem getLast?_cons_append (b x : Int) (l1 l2 : List Int)
    (h : (b :: l1).getLast? = some x) :
    ((b :: l1) ++ l2).getLast? = (x :: l2).getLast? := by
  cases l2 with
  | nil =>
    rw [List.append_nil, h, List.getLast?_singleton]
  | cons c cs =>
    obtain ⟨y, hy⟩ := getLast?_cons_some cs c
    rw [List.getLast?_append, hy, List.getLast?_cons_cons, hy]
    rfl

theorem chain_glue (b x : Int) (l1 l2 : List Int)
    (h1 : List.Chain' (· ≤ ·) (b :: l1)) (hx : (b :: l1).getLast? = some x)
    (h2 : List.Chain' (· ≤ ·) (x :: l2)) :
    List.Chain' (· ≤ ·) ((b :: l1) ++ l2) := by
  apply List.Chain'.append h1 (List.chain'_cons'.mp h2).2
  intro u hu v hv
  rw [hx, Option.mem_some_iff] at hu
  subst hu
  exact (List.chain'_cons'.mp h2).1 v hv

theorem setType_counters (g : Grid) (r0 c0 : Int) (t : Terrain) (r c : Int) :
    ((setType g r0 c0 t).tile r c).numAdjRivers = (g.tile r c).numAdjRivers ∧
    ((setType g r0 c0 t).tile r c).numAdjLands = (g.tile r c).numAdjLands := by
  rw [setType_tile_pt]
  constructor <;> (split <;> rfl)

theorem heuristic_step_fst (cfg : Cfg) (g : Grid) (s : ZigState) :
    (heuristic_step cfg g s).1 = setType g s.i s.j .LHO_RIVER := rfl

theorem heuristic_loop_counters (cfg : Cfg) : ∀ (fuel : Nat) (g : Grid) (s : ZigState) (r c : Int),
    ((heuristic_loop cfg fuel g s).tile r c).numAdjRivers = (g.tile r c).numAdjRivers ∧
    ((heuristic_loop cfg fuel g s).tile r c).numAdjLands = (g.tile r c).numAdjLands := by
  intro fuel
  induction fuel with
  | zero =>
    intro g s r c
    exact ⟨rfl, rfl⟩
  | succ fuel ih =>
    intro g s r c
    rw [heuristic_loop]
    rcases hstep : heuristic_step cfg g s with ⟨g2, s2, done⟩
    have hg2 : g2 = setType g s.i s.j .LHO_RIVER := by
      rw [← heuristic_step_fst cfg g s, hstep]
    cases done
    · simp only [Bool.false_eq_true, if_false]
      refine ⟨?_, ?_⟩
      · rw [(ih g2 s2 r c).1, hg2, (setType_counters g s.i s.j .LHO_RIVER r c).1]
      · rw [(ih g2 s2 r c).2, hg2, (setType_counters g s.i s.j .LHO_RIVER r c).2]
    · simp only [if_true]
      rw [hg2]
      exact setType_counters g s.i s.j .LHO_RIVER r c

theorem heuristic_alloc_counters (cfg : Cfg) (r c : Int) :
    ((heuristic_grid cfg (allocate_grid cfg)).tile r c).numAdjRivers = 0 ∧
    ((heuristic_grid cfg (allocate_grid cfg)).tile r c).numAdjLands = 0 := by
  unfold heuristic_grid
  dsimp only
  refine ⟨?_, ?_⟩
  · rw [(heuristic_loop_counters cfg _ _ _ r c).1]
    dsimp only
    split <;> rfl
  · rw [(heuristic_loop_counters cfg _ _ _ r c).2]
    dsimp only
    split <;> rfl

theorem meadowTerm_nonneg (lv : Int) (g : Grid) (i j : Int) (hlv : 0 ≤ lv)
    (hr : 0 ≤ (g.tile i j).numAdjRivers) : 0 ≤ meadowTerm lv g i j := by
  unfold meadowTerm
  split
  · dsimp only
    split
    · exact hlv
    · exact mul_nonneg (by linarith) hr
  · exact le_refl 0

theorem suburbTerm_nonneg (lv : Int) (g : Grid) (i j : Int) (hlv : 0 ≤ lv)
    (hr : 0 ≤ (g.tile i j).numAdjRivers) : 0 ≤ suburbTerm lv g i j := by
  unfold suburbTerm
  split
  · dsimp only
    split
    · linarith
    · split
      · exact mul_nonneg (by linarith) hr
      · exact hlv
  · exact le_refl 0

theorem mountainTerm_nonneg (lv : Int) (g : Grid) (i j : Int) (hlv : 0 ≤ lv)
    (hr : 0 ≤ (g.tile i j).numAdjRivers) (hl : 0 ≤ (g.tile i j).numAdjLands) :
    0 ≤ mountainTerm lv g i j := by
  unfold mountainTerm
  split
  · dsimp only
    exact add_nonneg (mul_nonneg hl hlv) (mul_nonneg (mul_nonneg hl hr) hlv)
  · exact le_refl 0

theorem val_calc_nonneg (cfg : Cfg) (lc : Landscape) (lv : Int) (g : Grid) (hlv : 0 ≤ lv)
    (hcnt : ∀ r c : Int, 0 ≤ (g.tile r c).numAdjRivers ∧ 0 ≤ (g.tile r c).numAdjLands) :
    0 ≤ val_calc cfg lc lv g := by
  cases lc
  · unfold val_calc val_calc_meadow_thicket
    refine Finset.sum_nonneg fun i _ => Finset.sum_nonneg fun j _ => ?_
    exact meadowTerm_nonneg lv g i j hlv (hcnt i j).1
  · unfold val_calc val_calc_meadow_thicket
    refine Finset.sum_nonneg fun i _ => Finset.sum_nonneg fun j _ => ?_
    exact meadowTerm_nonneg lv g i j hlv (hcnt i j).1
  · unfold val_calc val_calc_mountain
    refine Finset.sum_nonneg fun i _ => Finset.sum_nonneg fun j _ => ?_
    exact mountainTerm_nonneg lv g i j hlv (hcnt i j).1 (hcnt i j).2
  · unfold val_calc val_calc_suburb
    refine Finset.sum_nonneg fun i _ => Finset.sum_nonneg fun j _ => ?_
    exact suburbTerm_nonneg lv g i j hlv (hcnt i j).1

theorem heuristic_val_nonneg (cfg : Cfg) (lc : Landscape) (lv : Int) (hlv : 0 ≤ lv) :
    0 ≤ val_calc cfg lc lv (heuristic_grid cfg (allocate_grid cfg)) := by
  apply val_calc_nonneg cfg lc lv _ hlv
  intro r c
  obtain ⟨h1, h2⟩ := heuristic_alloc_counters cfg r c
  rw [h1, h2]
  exact ⟨le_refl 0, le_refl 0⟩

theorem try_place_cases (cfg : Cfg) (lc : Landscape) (lv : Int)
    (recur : Grid → SState → Grid × SState × List Int)
    (isRiver : Bool) (i : Int) (st : LoopSt) :
    ∃ (ar : Bool × Grid) (tempG : Grid) (ss2 : SState) (tr : List Int),
      (if isRiver then add_river cfg i st.thisGrid else add_land cfg i st.thisGrid) = ar ∧
      recur ar.2 st.ss = (tempG, ss2, tr) ∧
      ((ar.1 = false ∧ try_place cfg lc lv recur isRiver i st = { st with thisGrid := ar.2 }) ∨
       (ar.1 = true ∧ val_calc cfg lc lv tempG > st.curB ∧
          try_place cfg lc lv recur isRiver i st =
            { thisGrid := remove_terrain cfg i ar.2,
              curB := val_calc cfg lc lv tempG, bestG := tempG,
              ss := { ss2 with bestVal := val_calc cfg lc lv tempG },
              trace := st.trace ++ tr ++ [val_calc cfg lc lv tempG] }) ∨
       (ar.1 = true ∧ ¬(val_calc cfg lc lv tempG > st.curB) ∧
          try_place cfg lc lv recur isRiver i st =
            { thisGrid := remove_terrain cfg i ar.2,
              curB := st.curB, bestG := st.bestG, ss := ss2,
              trace := st.trace ++ tr })) := by
  rcases har : (if isRiver then add_river cfg i st.thisGrid else add_land cfg i st.thisGrid)
    with ⟨added, tg⟩
  rcases hrec : recur tg st.ss with ⟨tempG, ss2, tr⟩
  refine ⟨(added, tg), tempG, ss2, tr, rfl, hrec, ?_⟩
  unfold try_place
  rw [har]
  cases added
  · exact Or.inl ⟨rfl, rfl⟩
  · simp only [if_true]
    rw [hrec]
    by_cases hv : val_calc cfg lc lv tempG > st.curB
    · refine Or.inr (Or.inl ⟨by trivial, hv, ?_⟩)
      rw [if_pos hv]
    · refine Or.inr (Or.inr ⟨by trivial, hv, ?_⟩)
      rw [if_neg hv]

theorem try_place_inv (cfg : Cfg) (lc : Landscape) (lv mtv : Int) (fuel : Nat)
    (ih : RGProps cfg lc lv mtv fuel) (b0 : Int) (ir : Bool) (isRiver : Bool) (i : Int)
    (st : LoopSt) (hInv : SearchInv cfg lc lv b0 ir st) :
    SearchInv cfg lc lv b0 ir (try_place cfg lc lv (recurse_grid cfg lc lv mtv fuel) isRiver i st) := by
  obtain ⟨h1, h2, h3, h4, h5, h6⟩ := hInv
  obtain ⟨ar, tempG, ss2, tr, har, hrec, hcase⟩ :=
    try_place_cases cfg lc lv (recurse_grid cfg lc lv mtv fuel) isRiver i st
  have hih := ih ar.2 st.ss (fun h => absurd h (by rw [h4]; simp))
  rw [hrec] at hih
  dsimp only at hih
  obtain ⟨c1, c2, c3, c4, c5⟩ := hih
  rcases hcase with ⟨_, heq⟩ | ⟨_, hv, heq⟩ | ⟨_, hv, heq⟩
  · rw [heq]
    exact ⟨h1, h2, h3, h4, h5, h6⟩
  · rw [heq]
    have hg1 : List.Chain' (· ≤ ·) ((b0 :: st.trace) ++ tr) :=
      chain_glue b0 st.ss.bestVal st.trace tr h1 h2 c1
    have hl1 : ((b0 :: st.trace) ++ tr).getLast? = some ss2.bestVal := by
      rw [getLast?_cons_append b0 st.ss.bestVal st.trace tr h2]
      exact c2
    have hlev : ss2.bestVal ≤ val_calc cfg lc lv tempG := by
      cases tr with
      | nil =>
        rw [List.append_nil] at hl1
        rw [h2, Option.some_inj] at hl1
        rw [← hl1, ← h3]
        exact le_of_lt hv
      | cons x xs =>
        exact c4 (by simp)
    have hchain : List.Chain' (· ≤ ·)
        (((b0 :: st.trace) ++ tr) ++ [val_calc cfg lc lv tempG]) := by
      apply List.Chain'.append hg1 (List.chain'_singleton _)
      intro u hu v hv'
      rw [hl1, Option.mem_some_iff] at hu
      rw [List.head?_cons, Option.mem_some_iff] at hv'
      rw [← hu, ← hv']
      exact hlev
    refine ⟨hchain, ?_, rfl, c3 h4, ?_, ?_⟩
    · exact List.getLast?_concat (b0 :: (st.trace ++ tr))
    · intro _
      exact le_refl _
    · intro _ _
      have hb0 : b0 ≤ st.ss.bestVal := chain_cons_le_getLast st.trace b0 st.ss.bestVal h1 h2
      rw [← h3] at hb0
      exact lt_of_le_of_lt hb0 hv
  · have htr : tr = [] := by
      by_contra hne
      have hc4 := c4 hne
      have hc5 := c5 h4 hne
      have hvle : val_calc cfg lc lv tempG ≤ st.curB := not_lt.mp hv
      omega
    subst htr
    have hbv : st.ss.bestVal = ss2.bestVal := by
      rw [List.getLast?_singleton, Option.some_inj] at c2
      exact c2
    have hir2 : ss2.initialRec = false := c3 h4
    rw [heq]
    refine ⟨?_, ?_, ?_, hir2, ?_, ?_⟩
    · simp only [List.append_nil]
      exact h1
    · simp only [List.append_nil]
      rw [h2, Option.some_inj]
      exact hbv
    · rw [h3]
      exact hbv
    · simp only [List.append_nil]
      intro hne
      rw [← hbv]
      exact h5 hne
    · simp only [List.append_nil]
      intro hf hne
      rw [← hbv]
      exact h6 hf hne

theorem search_fold_inv (cfg : Cfg) (lc : Landscape) (lv mtv : Int) (fuel : Nat)
    (ih : RGProps cfg lc lv mtv fuel) (b0 : Int) (ir : Bool) :
    ∀ (idxs : List Nat) (st : LoopSt), SearchInv cfg lc lv b0 ir st →
    SearchInv cfg lc lv b0 ir (idxs.foldl
      (fun st i =>
        try_place cfg lc lv (recurse_grid cfg lc lv mtv fuel) false (i : Int)
          (try_place cfg lc lv (recurse_grid cfg lc lv mtv fuel) true (i : Int) st)) st) := by
  intro idxs
  induction idxs with
  | nil =>
    intro st h
    exact h
  | cons a as ihl =>
    intro st h
    exact ihl _ (try_place_inv cfg lc lv mtv fuel ih b0 ir false (a : Int) _
      (try_place_inv cfg lc lv mtv fuel ih b0 ir true (a : Int) st h))

theorem recurse_grid_succ_cases (cfg : Cfg) (lc : Landscape) (lv mtv : Int) (fuel : Nat)
    (g : Grid) (ss : SState) :
    recurse_grid cfg lc lv mtv (fuel + 1) g ss = (g, ss, []) ∨
    (∃ st0 : LoopSt,
      ((ss.initialRec = true ∧ st0 =
        { thisGrid := g,
          curB := val_calc cfg lc lv (heuristic_grid cfg (allocate_grid cfg)),
          bestG := heuristic_grid cfg (allocate_grid cfg),
          ss := { bestVal := val_calc cfg lc lv (heuristic_grid cfg (allocate_grid cfg)),
                  initialRec := false },
          trace := [val_calc cfg lc lv (heuristic_grid cfg (allocate_grid cfg))] }) ∨
       (ss.initialRec = false ∧ st0 =
        { thisGrid := g, curB := ss.bestVal, bestG := g, ss := ss, trace := [] })) ∧
      recurse_grid cfg lc lv mtv (fuel + 1) g ss =
        ((search_fold cfg lc lv mtv fuel st0).bestG,
         (search_fold cfg lc lv mtv fuel st0).ss,
         (search_fold cfg lc lv mtv fuel st0).trace)) := by
  rw [recurse_grid]
  by_cases hfull : g.full = true
  · rw [if_pos hfull]
    exact Or.inl rfl
  · rw [if_neg hfull]
    dsimp only
    by_cases hprune : val_calc cfg lc lv g + mtv * (g.maxTiles - g.numFilledTiles) ≤ ss.bestVal
    · rw [if_pos hprune]
      exact Or.inl rfl
    · rw [if_neg hprune]
      cases hIR : ss.initialRec
      · refine Or.inr ⟨_, Or.inr ⟨rfl, rfl⟩, ?_⟩
        simp only [hIR, Bool.false_eq_true, if_false]
        rfl
      · refine Or.inr ⟨_, Or.inl ⟨rfl, rfl⟩, ?_⟩
        simp only [hIR, if_true]
        rfl

theorem recurse_grid_props (cfg : Cfg) (lc : Landscape) (lv mtv : Int) :
    ∀ fuel : Nat, RGProps cfg lc lv mtv fuel := by
  intro fuel
  induction fuel with
  | zero =>
    intro g ss _
    exact ⟨List.chain'_singleton _, List.getLast?_singleton _, fun h => h,
      fun h => absurd rfl h, fun _ h => absurd rfl h⟩
  | succ fuel ihf =>
    intro g ss H
    rcases recurse_grid_succ_cases cfg lc lv mtv fuel g ss with heq | ⟨st0, hst0, heq⟩
    · rw [heq]
      exact ⟨List.chain'_singleton _, List.getLast?_singleton _, fun h => h,
        fun h => absurd rfl h, fun _ h => absurd rfl h⟩
    · have hInv : SearchInv cfg lc lv ss.bestVal ss.initialRec st0 := by
        rcases hst0 with ⟨hIR, rfl⟩ | ⟨hIR, rfl⟩
        · refine ⟨?_, ?_, rfl, rfl, ?_, ?_⟩
          · exact List.chain'_pair.mpr (H hIR)
          · rw [List.getLast?_cons_cons, List.getLast?_singleton]
          · intro _
            exact le_refl _
          · intro hf _
            rw [hIR] at hf
            exact absurd hf (by simp)
        · refine ⟨List.chain'_singleton _, List.getLast?_singleton _, rfl, hIR, ?_, ?_⟩
          · intro h
            exact absurd rfl h
          · intro _ h
            exact absurd rfl h
      have hF : SearchInv cfg lc lv ss.bestVal ss.initialRec
          (search_fold cfg lc lv mtv fuel st0) :=
        search_fold_inv cfg lc lv mtv fuel ihf ss.bestVal ss.initialRec
          (List.range (cfg.numRows * cfg.numCols).toNat) st0 hInv
      obtain ⟨i1, i2, i3, i4, i5, i6⟩ := hF
      rw [heq]
      exact ⟨i1, i2, fun _ => i4, i5, fun hf => i6 hf⟩

/-- C4: over one whole search run — a top-level `recurse_grid` call with the
shared state starting at `bestVal = -1` and `initial_recursion = true` on the
empty allocated grid, with the kind's per-tile land value — the successive
values assigned to the shared `bestVal` (collected in the returned trace)
never decrease: the trace prefixed with the initial `-1` is a
non-decreasing chain.  This holds for every recursion-depth fuel and every
`maxTileValue` argument, in particular the program's `maxTileVal lc`. -/
theorem C4_bestVal_trace_monotone (cfg : Cfg) (lc : Landscape) (mtv : Int) (fuel : Nat) :
    List.Chain' (· ≤ ·)
      ((-1) :: (recurse_grid cfg lc (landValue lc) mtv fuel (allocate_grid cfg)
        ⟨-1, true⟩).2.2) := by
  have hlv : (0 : Int) ≤ landValue lc := by cases lc <;> decide
  have hH : (⟨-1, true⟩ : SState).initialRec = true →
      (⟨-1, true⟩ : SState).bestVal ≤
        val_calc cfg lc (landValue lc) (heuristic_grid cfg (allocate_grid cfg)) := by
    intro _
    have h2 := heuristic_val_nonneg cfg lc (landValue lc) hlv
    show (-1 : Int) ≤ val_calc cfg lc (landValue lc) (heuristic_grid cfg (allocate_grid cfg))
    omega
  exact (recurse_grid_props cfg lc (landValue lc) mtv fuel (allocate_grid cfg)
    ⟨-1, true⟩ hH).1

end LoopHero
